import Mathlib

/-!
# Bulker: Google Cloud Storage adapter, GCS bulker, SQL type resolver, configuration source

A shallow embedding of

* `implementations/google_cloud_storage.go` (`GoogleConfig.Validate`,
  `NewGoogleCloudStorage`, `Upload`, `Download`, `DeleteObject`,
  `ValidateWritePermission`, `Close`, `Path`),
* `implementations/file_storage/gcs_bulker.go` (`NewGCSBulker`, `CreateStream`),
* `implementations/sql/type_resolver.go` (`TypeResolverImpl.Resolve`,
  `DummyTypeResolver.Resolve`),
* `app/configuration_source.go` (`DestinationConfig.Id`, `YamlConfigurationSource`),

and a model of the merge on primary key that `implementations/sql/stream_test.go`
tests, followed by the properties proved about them.

Conventions of the embedding:

* a Go `error` result is an `Option GoError` (`none` is `nil`);
* a byte slice holding text is the text, a byte slice holding file content is a
  list of numbers, a nil slice is `none`;
* the storage client is an oracle: it answers every call, given the calls made
  before, by returning or by panicking with a non-nil value; every call made is
  appended to a log;
* a Go map is an association list, ranged over in list order (Go fixes no order,
  the properties are stated for every list).
-/

set_option autoImplicit false

namespace Bulker

/-! ## Errors -/

/-- The payload `types.ErrorPayload` stored under `errorj.DBInfo`
(only the two fields the adapter fills). -/
structure ErrorPayload where
  Bucket : String
  Statement : String
deriving DecidableEq, Repr

/-- Go error values: `plain` is an error made by `errors.New` or `fmt.Errorf`, or
reported by a library; `saveOnStage cause msg payload` is
`errorj.SaveOnStageError.Wrap(cause, msg).WithProperty(errorj.DBInfo, payload)`. -/
inductive GoError where
  | plain (msg : String)
  | saveOnStage (cause : GoError) (msg : String) (payload : ErrorPayload)
deriving DecidableEq, Repr

/-- The error kind test: is the error of kind `errorj.SaveOnStageError`? -/
def GoError.isSaveOnStage : GoError → Bool
  | .plain _ => false
  | .saveOnStage _ _ _ => true

/-- Go `strings.Contains`. -/
def stringsContains (s sub : String) : Bool :=
  decide (sub.data <:+: s.data)

/-! ## Dynamic values -/

/-- A Go value of static type `any`, as far as the code inspects it. -/
inductive AnyValue where
  | null
  | bool (b : Bool)
  | int (n : Int)
  | float (text : String)
  | str (s : String)
  | time (t : String)
  | list (xs : List AnyValue)
  | object (m : List (String × AnyValue))

/-! ## GoogleConfig -/

/-- The `option.ClientOption` values the adapter builds. -/
inductive ClientOption where
  | WithCredentialsJSON (json : String)
  | WithCredentialsFile (path : String)
deriving DecidableEq, Repr

/-- The struct `GoogleConfig`. `Format` and `Compression` are the string types
`types.FileFormat` and `types.FileCompression`. -/
structure GoogleConfig where
  Bucket : String
  Folder : String
  Project : String
  Dataset : String
  KeyFile : AnyValue
  Format : String
  Compression : String
  Credentials : Option ClientOption

/-- The message of the package variable `ErrMalformedBQDataset`. -/
def ErrMalformedBQDatasetText : String :=
  "bq_dataset must be alphanumeric (plus underscores) and must be at most 1024 characters long"

/-- The package variable `ErrMalformedBQDataset`. -/
def ErrMalformedBQDataset : GoError := .plain ErrMalformedBQDatasetText

/-- The loop `for _, symbol := range gc.Dataset` of `Validate`: the error of the
first symbol that is neither an underscore nor a letter or number. -/
def checkSymbols (IsLetterOrNumber : Char → Bool) : List Char → Option GoError
  | [] => none
  | symbol :: rest =>
    if symbol != '_' && !IsLetterOrNumber symbol then
      some (.plain (ErrMalformedBQDatasetText ++ ": \x27" ++ String.singleton symbol ++ "\x27"))
    else checkSymbols IsLetterOrNumber rest

/-- The dataset part of `Validate` (lines 43-54). `len(gc.Dataset)` is the length
in bytes. -/
def validateDataset (IsLetterOrNumber : Char → Bool) (Dataset : String) : Option GoError :=
  if Dataset != "" then
    if Dataset.utf8ByteSize > 1024 then some ErrMalformedBQDataset
    else checkSymbols IsLetterOrNumber Dataset.data
  else none

/-- The method `(*GoogleConfig).Validate` on a non-nil receiver: the returned error
and the config as the method leaves it. `IsLetterOrNumber` is `utils.IsLetterOrNumber`
and `Marshal` is `jsoniter.Marshal` on the key-file object (its error is given by
its text); neither is part of the source under study. -/
def GoogleConfig.Validate (IsLetterOrNumber : Char → Bool)
    (Marshal : List (String × AnyValue) → Except String String)
    (gc : GoogleConfig) : Option GoError × GoogleConfig :=
  match validateDataset IsLetterOrNumber gc.Dataset with
  | some e => (some e, gc)
  | none =>
    match gc.KeyFile with
    | .object keyFileObject =>
      if keyFileObject.length == 0 then
        (some (.plain "Google keyFile is required parameter"), gc)
      else
        match Marshal keyFileObject with
        | .error err => (some (.plain ("Malformed google keyFile: " ++ err)), gc)
        | .ok b => (none, { gc with Credentials := some (.WithCredentialsJSON b) })
    | .str keyFile =>
      if keyFile == "workload_identity" then (none, gc)
      else if keyFile == "" then
        (some (.plain "Google keyFile is required parameter"), gc)
      else if stringsContains keyFile "\x7b" then
        (none, { gc with Credentials := some (.WithCredentialsJSON keyFile) })
      else
        (none, { gc with Credentials := some (.WithCredentialsFile keyFile) })
    | _ => (some (.plain "Google key_file must be string or json object"), gc)

/-- The method `Validate` on a possibly nil receiver. -/
def Validate (IsLetterOrNumber : Char → Bool)
    (Marshal : List (String × AnyValue) → Except String String) :
    Option GoogleConfig → Option GoError × Option GoogleConfig
  | none => (some (.plain "Google config is required"), none)
  | some gc =>
    ((gc.Validate IsLetterOrNumber Marshal).1, some (gc.Validate IsLetterOrNumber Marshal).2)

/-! ## The storage client -/

/-- File content. -/
abbrev Bytes := List Nat

/-- The struct `storage.ObjectAttrsToUpdate`, with the two attributes `Upload` sets
(`none` is unset). -/
structure ObjectAttrsToUpdate where
  ContentEncoding : Option String
  ContentType : Option String
deriving DecidableEq, Repr

/-- The calls the adapter makes on the storage client and on the handles, writers
and readers obtained from it. `Copy` is `io.Copy(w, fileReader)` and `ReadAll` is
`io.ReadAll(r)`. -/
inductive ClientCall where
  | Bucket (name : String)
  | Object (bucket key : String)
  | NewWriter (bucket key : String)
  | Copy (bucket key : String) (data : Bytes)
  | WriterClose (bucket key : String)
  | Update (bucket key : String) (metadata : ObjectAttrsToUpdate)
  | NewReader (bucket key : String)
  | ReadAll (bucket key : String)
  | ReaderClose (bucket key : String)
  | Delete (bucket key : String)
  | Close
deriving DecidableEq, Repr

/-- What a call does: it returns (an error result and, for `ReadAll`, the bytes
read), or it panics with a value `r`, given by its `%v` text. The value is not nil,
as `recover()` returns it for every panic from Go 1.21 on. A panic that `recover()`
returns as nil (`panic(nil)` before Go 1.21), for which the guard `r != nil` of the
handlers leaves the error result as it stands, is not represented: the properties
about panics are about panics with a non-nil value. `Bucket`, `Object` and
`NewWriter` have no error result in the Go API: for them only returning against
panicking is observed. -/
inductive Response where
  | ret (err : Option GoError) (data : Bytes)
  | panic (r : String)
deriving DecidableEq, Repr

/-- A storage client: its response to a call, given the calls made so far. -/
abbrev StorageClient := List ClientCall → ClientCall → Response

/-- The constants of package `types` the adapter compares with. -/
structure FileConstants where
  FileFormatCSV : String
  FileFormatNDJSON : String
  FileFormatNDJSONFLAT : String
  FileCompressionGZIP : String

/-- The struct `GoogleCloudStorage`: `calls` is the log of the calls made on
`client` so far, `closed` the atomic flag. -/
structure GoogleCloudStorage where
  config : GoogleConfig
  client : StorageClient
  calls : List ClientCall
  closed : Bool

/-- The response of the client to the call `c`, made after the calls `made` of the
operation under way. -/
def GoogleCloudStorage.respond (gcs : GoogleCloudStorage) (made : List ClientCall)
    (c : ClientCall) : Response :=
  gcs.client (gcs.calls ++ made) c

/-- The adapter once the calls `made` of an operation are logged. -/
def GoogleCloudStorage.logged (gcs : GoogleCloudStorage) (made : List ClientCall) :
    GoogleCloudStorage :=
  { gcs with calls := gcs.calls ++ made }

/-- The outcome of `NewGoogleCloudStorage`: an adapter, an error, or the nil
dereference of `config.Credentials` on a nil config. -/
inductive NewResult where
  | adapter (gcs : GoogleCloudStorage)
  | error (err : GoError)
  | nilDereference

/-- The function `NewGoogleCloudStorage`. `NewClient` is `storage.NewClient`, called
without option when `config.Credentials` is nil and with it otherwise; its error is
given by its text. -/
def NewGoogleCloudStorage (IsLetterOrNumber : Char → Bool)
    (Marshal : List (String × AnyValue) → Except String String) (tc : FileConstants)
    (NewClient : Option ClientOption → Except String StorageClient)
    (config : Option GoogleConfig) : NewResult :=
  -- err = config.Validate()
  let validated := Validate IsLetterOrNumber Marshal config
  let _err := validated.1
  match validated.2 with
  | none => .nilDereference
  | some config =>
    -- client, err = storage.NewClient(...): err is assigned again
    match NewClient config.Credentials with
    | .error err => .error (.plain ("Error creating google cloud storage client: " ++ err))
    | .ok client =>
      let config := if config.Format == "" then { config with Format := tc.FileFormatNDJSON } else config
      .adapter { client := client, config := config, calls := [], closed := false }

/-- The method `Path`. -/
def GoogleCloudStorage.Path (gcs : GoogleCloudStorage) (fileName : String) : String :=
  if gcs.config.Folder != "" then gcs.config.Folder ++ "/" ++ fileName else fileName

/-- The error every operation returns on a closed instance. -/
def closedError : GoError := .plain "attempt to use closed GoogleCloudStorage instance"

/-- The error the panic handler of `Upload` builds; `fileName` is the path. -/
def uploadPanicError (gcs : GoogleCloudStorage) (fileName r : String) : GoError :=
  .plain ("panic while uploading file: " ++ fileName ++ " to GCC project: " ++ gcs.config.Project
    ++ " bucket: " ++ gcs.config.Bucket ++ " dataset: " ++ gcs.config.Dataset ++ " : " ++ r)

/-- The error the panic handler of `Download` builds; `key` is the path. -/
def downloadPanicError (gcs : GoogleCloudStorage) (key r : String) : GoError :=
  .plain ("panic while downloading file: " ++ key ++ " from GCC project: " ++ gcs.config.Project
    ++ " bucket: " ++ gcs.config.Bucket ++ " dataset: " ++ gcs.config.Dataset ++ " : " ++ r)

/-- The error the panic handler of `DeleteObject` builds; `key` is the path. -/
def deletePanicError (gcs : GoogleCloudStorage) (key r : String) : GoError :=
  .plain ("panic while deleting file: " ++ key ++ " to GCC project: " ++ gcs.config.Project
    ++ " bucket: " ++ gcs.config.Bucket ++ " dataset: " ++ gcs.config.Dataset ++ " : " ++ r)

/-- The wrapping `errorj.SaveOnStageError.Wrap(err, msg).WithProperty(errorj.DBInfo, ...)`
used by the three operations; `fileName` is the path. -/
def stageError (gcs : GoogleCloudStorage) (err : GoError) (msg fileName : String) : GoError :=
  .saveOnStage err msg { Bucket := gcs.config.Bucket, Statement := "file: " ++ fileName }

/-- The metadata `Upload` sets (lines 159-167). -/
def uploadMetadata (tc : FileConstants) (config : GoogleConfig) : ObjectAttrsToUpdate :=
  { ContentEncoding := if config.Compression == tc.FileCompressionGZIP then some "gzip" else none
    ContentType :=
      if config.Format == tc.FileFormatCSV then some "text/csv"
      else if config.Format == tc.FileFormatNDJSON || config.Format == tc.FileFormatNDJSONFLAT then
        some "application/x-ndjson"
      else none }

/-- The method `Upload`: the returned error and the adapter afterwards. The reader
is given by the bytes it yields. A panic of any call is recovered by the deferred
handler, which sets the error result. -/
def GoogleCloudStorage.Upload (tc : FileConstants) (gcs : GoogleCloudStorage)
    (fileName : String) (fileReader : Bytes) : Option GoError × GoogleCloudStorage :=
  let fileName := gcs.Path fileName
  if gcs.closed then (some closedError, gcs) else
  let bucket := ClientCall.Bucket gcs.config.Bucket
  let object := ClientCall.Object gcs.config.Bucket fileName
  let newWriter := ClientCall.NewWriter gcs.config.Bucket fileName
  let copy := ClientCall.Copy gcs.config.Bucket fileName fileReader
  let close := ClientCall.WriterClose gcs.config.Bucket fileName
  let update := ClientCall.Update gcs.config.Bucket fileName (uploadMetadata tc gcs.config)
  match gcs.respond [] bucket with
  | .panic r => (some (uploadPanicError gcs fileName r), gcs.logged [bucket])
  | .ret _ _ =>
  match gcs.respond [bucket] object with
  | .panic r => (some (uploadPanicError gcs fileName r), gcs.logged [bucket, object])
  | .ret _ _ =>
  match gcs.respond [bucket, object] newWriter with
  | .panic r => (some (uploadPanicError gcs fileName r), gcs.logged [bucket, object, newWriter])
  | .ret _ _ =>
  match gcs.respond [bucket, object, newWriter] copy with
  | .panic r =>
    (some (uploadPanicError gcs fileName r), gcs.logged [bucket, object, newWriter, copy])
  | .ret (some err) _ =>
    (some (stageError gcs err "failed to write file to google cloud storage" fileName),
      gcs.logged [bucket, object, newWriter, copy])
  | .ret none _ =>
  match gcs.respond [bucket, object, newWriter, copy] close with
  | .panic r =>
    (some (uploadPanicError gcs fileName r), gcs.logged [bucket, object, newWriter, copy, close])
  | .ret (some err) _ =>
    (some (stageError gcs err "failed to close google cloud writer" fileName),
      gcs.logged [bucket, object, newWriter, copy, close])
  | .ret none _ =>
  match gcs.respond [bucket, object, newWriter, copy, close] update with
  | .panic r =>
    (some (uploadPanicError gcs fileName r),
      gcs.logged [bucket, object, newWriter, copy, close, update])
  | .ret (some err) _ =>
    (some (stageError gcs err "failed to set Content-Type metadata" fileName),
      gcs.logged [bucket, object, newWriter, copy, close, update])
  | .ret none _ => (none, gcs.logged [bucket, object, newWriter, copy, close, update])

/-- The method `UploadBytes`. -/
def GoogleCloudStorage.UploadBytes (tc : FileConstants) (gcs : GoogleCloudStorage)
    (fileName : String) (fileBytes : Bytes) : Option GoError × GoogleCloudStorage :=
  gcs.Upload tc fileName fileBytes

/-- The deferred `r.Close()` of `Download`, run after the calls `made` with the named
results `fileBytes` and `err` as set (or with a panic `pending`): its error result is
dropped; if it panics, its panic is the one the handler recovers. -/
def deferredReaderClose (gcs : GoogleCloudStorage) (made : List ClientCall) (key : String)
    (fileBytes : Option Bytes) (err : Option GoError) (pending : Option String) :
    (Option Bytes × Option GoError) × GoogleCloudStorage :=
  let close := ClientCall.ReaderClose gcs.config.Bucket key
  match gcs.respond made close with
  | .panic r => ((fileBytes, some (downloadPanicError gcs key r)), gcs.logged (made ++ [close]))
  | .ret _ _ =>
    match pending with
    | some r => ((fileBytes, some (downloadPanicError gcs key r)), gcs.logged (made ++ [close]))
    | none => ((fileBytes, err), gcs.logged (made ++ [close]))

/-- The method `Download`: the named results `(fileBytes, err)` and the adapter
afterwards. -/
def GoogleCloudStorage.Download (gcs : GoogleCloudStorage) (key : String) :
    (Option Bytes × Option GoError) × GoogleCloudStorage :=
  let key := gcs.Path key
  if gcs.closed then ((none, some closedError), gcs) else
  let bucket := ClientCall.Bucket gcs.config.Bucket
  let object := ClientCall.Object gcs.config.Bucket key
  let newReader := ClientCall.NewReader gcs.config.Bucket key
  let readAll := ClientCall.ReadAll gcs.config.Bucket key
  match gcs.respond [] bucket with
  | .panic r => ((none, some (downloadPanicError gcs key r)), gcs.logged [bucket])
  | .ret _ _ =>
  match gcs.respond [bucket] object with
  | .panic r => ((none, some (downloadPanicError gcs key r)), gcs.logged [bucket, object])
  | .ret _ _ =>
  match gcs.respond [bucket, object] newReader with
  | .panic r =>
    ((none, some (downloadPanicError gcs key r)), gcs.logged [bucket, object, newReader])
  | .ret (some err) _ =>
    ((none, some (stageError gcs err "failed to create google cloud reader" key)),
      gcs.logged [bucket, object, newReader])
  | .ret none _ =>
  -- defer r.Close()
  match gcs.respond [bucket, object, newReader] readAll with
  | .panic r => deferredReaderClose gcs [bucket, object, newReader, readAll] key none none (some r)
  | .ret (some err) _ =>
    deferredReaderClose gcs [bucket, object, newReader, readAll] key none
      (some (stageError gcs err "failed to read google cloud reader" key)) none
  | .ret none data =>
    deferredReaderClose gcs [bucket, object, newReader, readAll] key (some data) none none

/-- The method `DeleteObject`. -/
def GoogleCloudStorage.DeleteObject (gcs : GoogleCloudStorage) (key : String) :
    Option GoError × GoogleCloudStorage :=
  let key := gcs.Path key
  if gcs.closed then (some closedError, gcs) else
  let bucket := ClientCall.Bucket gcs.config.Bucket
  let object := ClientCall.Object gcs.config.Bucket key
  let delete := ClientCall.Delete gcs.config.Bucket key
  match gcs.respond [] bucket with
  | .panic r => (some (deletePanicError gcs key r), gcs.logged [bucket])
  | .ret _ _ =>
  match gcs.respond [bucket] object with
  | .panic r => (some (deletePanicError gcs key r), gcs.logged [bucket, object])
  | .ret _ _ =>
  match gcs.respond [bucket, object] delete with
  | .panic r => (some (deletePanicError gcs key r), gcs.logged [bucket, object, delete])
  | .ret (some err) _ =>
    (some (stageError gcs err "failed to delete from google cloud" key),
      gcs.logged [bucket, object, delete])
  | .ret none _ => (none, gcs.logged [bucket, object, delete])

/-- The method `ValidateWritePermission`; `now` is the text of `timestamp.NowUTC()`. -/
def GoogleCloudStorage.ValidateWritePermission (tc : FileConstants) (gcs : GoogleCloudStorage)
    (now : String) : Option GoError × GoogleCloudStorage :=
  let filename := "test_" ++ now
  match gcs.UploadBytes tc filename [] with
  | (some err, g) => (some err, g)
  | (none, g) =>
    -- the error of DeleteObject is logged and suppressed
    (none, (g.DeleteObject filename).2)

/-- The outcome of `Close`, which has no panic handler: the error result of
`client.Close()`, or its panic. -/
inductive CloseOutcome where
  | returned (err : Option GoError)
  | panicked (r : String)
deriving DecidableEq, Repr

/-- The method `Close`: the flag is set before the client is closed. -/
def GoogleCloudStorage.Close (gcs : GoogleCloudStorage) : CloseOutcome × GoogleCloudStorage :=
  let gcs := { gcs with closed := true }
  match gcs.respond [] .Close with
  | .panic r => (.panicked r, gcs.logged [.Close])
  | .ret err _ => (.returned err, gcs.logged [.Close])

/-- The operations of the adapter, for sequences of calls on one instance. -/
inductive Operation where
  | Upload (fileName : String) (fileReader : Bytes)
  | UploadBytes (fileName : String) (fileBytes : Bytes)
  | Download (key : String)
  | DeleteObject (key : String)
  | ValidateWritePermission (now : String)
  | Close

/-- The adapter after one operation. -/
def GoogleCloudStorage.after (tc : FileConstants) (gcs : GoogleCloudStorage) :
    Operation → GoogleCloudStorage
  | .Upload fileName fileReader => (gcs.Upload tc fileName fileReader).2
  | .UploadBytes fileName fileBytes => (gcs.UploadBytes tc fileName fileBytes).2
  | .Download key => (gcs.Download key).2
  | .DeleteObject key => (gcs.DeleteObject key).2
  | .ValidateWritePermission now => (gcs.ValidateWritePermission tc now).2
  | .Close => gcs.Close.2

/-- The adapter after a sequence of operations. -/
def GoogleCloudStorage.afterAll (tc : FileConstants) (gcs : GoogleCloudStorage) :
    List Operation → GoogleCloudStorage
  | [] => gcs
  | op :: ops => (gcs.after tc op).afterAll tc ops

/-! ## The GCS bulker -/

/-- The message constant `GCSAutocommitUnsupported`. -/
def GCSAutocommitUnsupported : String :=
  "Stream mode is not supported for GCS. Please use \x27batch\x27 mode"

/-- Modelled from the spec: the struct `implementations.FileConfig` is not in the
source under study; the settings of the object-storage variant that `GoogleConfig`
carries (folder prefix, format, compression) stand for it. -/
structure FileConfig where
  Folder : String
  Format : String
  Compression : String

/-- The struct `GCSConfig`. -/
structure GCSConfig where
  FileConfig : FileConfig
  Bucket : String
  AccessKey : AnyValue

/-- The struct `GCSBulker`, which embeds the adapter. -/
structure GCSBulker where
  GoogleCloudStorage : GoogleCloudStorage

/-- The outcome of `NewGCSBulker`. -/
inductive NewBulkerResult where
  | bulker (b : GCSBulker)
  | error (err : GoError)
  | nilDereference

/-- The function `NewGCSBulker`. `ParseObject` is `utils.ParseObject` into a fresh
`GCSConfig`, its error given by its text. -/
def NewGCSBulker (IsLetterOrNumber : Char → Bool)
    (Marshal : List (String × AnyValue) → Except String String) (tc : FileConstants)
    (NewClient : Option ClientOption → Except String StorageClient)
    (ParseObject : AnyValue → Except String GCSConfig)
    (DestinationConfig : AnyValue) : NewBulkerResult :=
  match ParseObject DestinationConfig with
  | .error err => .error (.plain ("failed to parse destination config: " ++ err))
  | .ok gcsConfig =>
    let googleConfig : GoogleConfig :=
      { Bucket := gcsConfig.Bucket
        Folder := gcsConfig.FileConfig.Folder
        Project := ""
        Dataset := ""
        KeyFile := gcsConfig.AccessKey
        Format := gcsConfig.FileConfig.Format
        Compression := gcsConfig.FileConfig.Compression
        Credentials := none }
    match NewGoogleCloudStorage IsLetterOrNumber Marshal tc NewClient (some googleConfig) with
    | .error err => .error err
    | .nilDereference => .nilDereference
    | .adapter gcsAdapter => .bulker { GoogleCloudStorage := gcsAdapter }

/-- The constants of the string type `bulker.BulkMode` that `CreateStream` switches on. -/
structure BulkModes where
  Stream : String
  Batch : String
  ReplaceTable : String
  ReplacePartition : String

/-- The stream constructors of package `file_storage`. -/
inductive StreamConstructor where
  | NewTransactionalStream
  | NewReplaceTableStream
  | NewReplacePartitionStream
deriving DecidableEq, Repr

/-- What `CreateStream` returns, and the stream constructors it invoked. -/
structure CreateStreamResult (σ : Type) where
  stream : Option σ
  err : Option GoError
  invoked : List StreamConstructor

/-- The method `GCSBulker.CreateStream`. The three constructors are not in the
source under study: `construct` gives, for each, the pair it returns. -/
def GCSBulker.CreateStream {σ ο : Type} (modes : BulkModes)
    (construct : StreamConstructor → String → GCSBulker → String → List ο → Option σ × Option GoError)
    (gcs : GCSBulker) (id tableName : String) (mode : String) (streamOptions : List ο) :
    CreateStreamResult σ :=
  if mode == modes.Stream then
    { stream := none, err := some (.plain GCSAutocommitUnsupported), invoked := [] }
  else if mode == modes.Batch then
    let r := construct .NewTransactionalStream id gcs tableName streamOptions
    { stream := r.1, err := r.2, invoked := [.NewTransactionalStream] }
  else if mode == modes.ReplaceTable then
    let r := construct .NewReplaceTableStream id gcs tableName streamOptions
    { stream := r.1, err := r.2, invoked := [.NewReplaceTableStream] }
  else if mode == modes.ReplacePartition then
    let r := construct .NewReplacePartitionStream id gcs tableName streamOptions
    { stream := r.1, err := r.2, invoked := [.NewReplacePartitionStream] }
  else
    { stream := none, err := some (.plain ("unsupported bulk mode: " ++ mode)), invoked := [] }

/-! ## The type resolver -/

/-- Modelled from the spec: the enumeration `types.DataType` is not in the source
under study; the logical types are "boolean, integer, float, string, timestamp,
date, json/unknown". -/
inductive DataType where
  | BOOL
  | INT64
  | FLOAT64
  | STRING
  | TIMESTAMP
  | DATE
  | UNKNOWN
deriving DecidableEq, Repr

/-- A backend type of a hint (an element of `SQLTypes`), given by its text. -/
abbrev SQLType := String

/-- Modelled from the spec: the struct `Field` and its constructors `NewField` and
`NewFieldWithSQLType` are not in the source under study; a Field is a logical type
with an "optional explicit backend-type override". -/
structure Field where
  dataType : DataType
  sqlTypeOverride : Option SQLType
deriving DecidableEq, Repr

/-- Modelled from the spec: `NewField` makes a Field with no override. -/
def NewField (dataType : DataType) : Field :=
  { dataType := dataType, sqlTypeOverride := none }

/-- Modelled from the spec: `NewFieldWithSQLType` makes a Field with the override. -/
def NewFieldWithSQLType (dataType : DataType) (sqlType : SQLType) : Field :=
  { dataType := dataType, sqlTypeOverride := some sqlType }

/-- A Go map with string keys. -/
abbrev GoMap (V : Type) := List (String × V)

/-- The lookup `m[k]` with its `ok` flag. -/
def GoMap.get {V : Type} (m : GoMap V) (k : String) : Option V :=
  List.lookup k m

/-- The assignment `m[k] = v`. -/
def GoMap.set {V : Type} : GoMap V → String → V → GoMap V
  | [], k, v => [(k, v)]
  | (k', v') :: rest, k, v =>
    if k' == k then (k', v) :: rest else (k', v') :: GoMap.set rest k v

/-- The keys of a map. -/
def GoMap.keys {V : Type} (m : GoMap V) : List String := m.map Prod.fst

/-- The functions and the table of package `types` that `Resolve` uses; they are
not in the source under study. Errors are given by their text. -/
structure TypesPackage where
  ReformatValue : AnyValue → AnyValue
  TypeFromValue : AnyValue → Except String DataType
  Convert : DataType → AnyValue → Except String AnyValue
  DefaultTypes : GoMap DataType

/-- What `Resolve` returns, and the record as it leaves it. -/
structure ResolveResult where
  fields : Option (GoMap Field)
  err : Option GoError
  object : GoMap AnyValue

/-- The loop of `TypeResolverImpl.Resolve` over the entries still to visit, with
the record and the Fields as they stand. -/
def resolveLoop (T : TypesPackage) (sqlTypeHints : GoMap SQLType) :
    List (String × AnyValue) → GoMap AnyValue → GoMap Field → ResolveResult
  | [], object, Fields => { fields := some Fields, err := none, object := object }
  | (k, v) :: rest, object, Fields =>
    let v := T.ReformatValue v
    let object := object.set k v
    match T.TypeFromValue v with
    | .error err =>
      { fields := none
        err := some (.plain ("Error getting type of field [" ++ k ++ "]: " ++ err))
        object := object }
    | .ok resultColumnType =>
      match T.DefaultTypes.get k with
      | some defaultType =>
        match T.Convert defaultType v with
        | .error err =>
          { fields := none
            err := some (.plain ("Error default converting field [" ++ k ++ "]: " ++ err))
            object := object }
        | .ok converted =>
          let object := object.set k converted
          match sqlTypeHints.get k with
          | some sqlType =>
            resolveLoop T sqlTypeHints rest object
              (Fields.set k (NewFieldWithSQLType defaultType sqlType))
          | none => resolveLoop T sqlTypeHints rest object (Fields.set k (NewField defaultType))
      | none =>
        match sqlTypeHints.get k with
        | some sqlType =>
          resolveLoop T sqlTypeHints rest object
            (Fields.set k (NewFieldWithSQLType resultColumnType sqlType))
        | none => resolveLoop T sqlTypeHints rest object (Fields.set k (NewField resultColumnType))

/-- The method `TypeResolverImpl.Resolve`. -/
def Resolve (T : TypesPackage) (object : GoMap AnyValue) (sqlTypeHints : GoMap SQLType) :
    ResolveResult :=
  resolveLoop T sqlTypeHints object object []

/-! ## Concrete inputs -/

/-- Modelled from the spec: `utils.IsLetterOrNumber` is not in the source under
study; a symbol is "alphanumeric" when it is an ASCII letter or digit. -/
def asciiLetterOrNumber (symbol : Char) : Bool :=
  (97 ≤ symbol.toNat && symbol.toNat ≤ 122) || (65 ≤ symbol.toNat && symbol.toNat ≤ 90)
    || (48 ≤ symbol.toNat && symbol.toNat ≤ 57)

/-- A config with the given key file and dataset, bucket `bucket1`, folder `dir`. -/
def sampleConfig (KeyFile : AnyValue) (Dataset : String) : GoogleConfig :=
  { Bucket := "bucket1", Folder := "dir", Project := "proj", Dataset := Dataset
    KeyFile := KeyFile, Format := "", Compression := "", Credentials := none }

/-- The values of the constants of package `types` used in concrete evaluations. -/
def sampleConstants : FileConstants :=
  { FileFormatCSV := "csv", FileFormatNDJSON := "ndjson", FileFormatNDJSONFLAT := "ndjson_flat"
    FileCompressionGZIP := "gzip" }

/-- A client on which every call returns without error; `ReadAll` yields two bytes. -/
def quietClient : StorageClient := fun _ _ => .ret none [104, 105]

/-- An open adapter over `client`, with no call made yet. -/
def sampleAdapter (client : StorageClient) : GoogleCloudStorage :=
  { config := sampleConfig (.str "workload_identity") "", client := client, calls := [], closed := false }

/-- A client on which every call returns without error, except that closing a
reader panics. -/
def readerClosePanicsClient : StorageClient := fun _ c =>
  match c with
  | .ReaderClose _ _ => .panic "close failed"
  | _ => .ret none [104, 105]

/-- A client on which every call returns without error, except that the read reports
the error `unavailable` and closing the reader panics. -/
def readFailsClosePanicsClient : StorageClient := fun _ c =>
  match c with
  | .ReadAll _ _ => .ret (some (.plain "unavailable")) []
  | .ReaderClose _ _ => .panic "close failed"
  | _ => .ret none []

/-- A client on which every call panics. -/
def panickingClient : StorageClient := fun _ _ => .panic "boom"

/-- A client on which every call returns the error `unavailable`. -/
def failingClient : StorageClient := fun _ _ => .ret (some (.plain "unavailable")) []

/-! ## Panics raised during an operation -/

/-- Did the call panic (with a non-nil value)? -/
def Response.isPanic : Response → Bool
  | .panic _ => true
  | .ret _ _ => false

/-- Did one of the calls `new`, made in this order after the calls `before`, panic? -/
def panicAmong (client : StorageClient) : List ClientCall → List ClientCall → Bool
  | _, [] => false
  | before, c :: rest => (client before c).isPanic || panicAmong client (before ++ [c]) rest

/-- Was a panic raised by one of the calls made between the adapter `gcs` and the
adapter `g` an operation leaves? -/
def GoogleCloudStorage.panicRaised (gcs g : GoogleCloudStorage) : Bool :=
  panicAmong gcs.client gcs.calls (g.calls.drop gcs.calls.length)

/-! ## Errors reported during an operation -/

/-- The error result of a call that returned. -/
def Response.err : Response → Option GoError
  | .ret err _ => err
  | .panic _ => none

/-- The error the client reports to call number `n` (from 0) of the list `calls`,
the calls before it in the list having been made. -/
def GoogleCloudStorage.reported (gcs : GoogleCloudStorage) (calls : List ClientCall) (n : Nat) :
    Option GoError :=
  match calls.get? n with
  | none => none
  | some c => (gcs.respond (calls.take n) c).err

/-- The calls of an `Upload` none of whose steps fails, in order: bucket, object,
writer, copy (3), writer close (4), metadata update (5). -/
def uploadCalls (tc : FileConstants) (gcs : GoogleCloudStorage) (fileName : String)
    (fileReader : Bytes) : List ClientCall :=
  [.Bucket gcs.config.Bucket, .Object gcs.config.Bucket (gcs.Path fileName),
   .NewWriter gcs.config.Bucket (gcs.Path fileName),
   .Copy gcs.config.Bucket (gcs.Path fileName) fileReader,
   .WriterClose gcs.config.Bucket (gcs.Path fileName),
   .Update gcs.config.Bucket (gcs.Path fileName) (uploadMetadata tc gcs.config)]

/-- The calls of a `Download` none of whose steps fails, in order: bucket, object,
reader creation (2), read (3), deferred reader close (4). -/
def downloadCalls (gcs : GoogleCloudStorage) (key : String) : List ClientCall :=
  [.Bucket gcs.config.Bucket, .Object gcs.config.Bucket (gcs.Path key),
   .NewReader gcs.config.Bucket (gcs.Path key), .ReadAll gcs.config.Bucket (gcs.Path key),
   .ReaderClose gcs.config.Bucket (gcs.Path key)]

/-- The calls of a `DeleteObject`, in order: bucket, object, delete (2). -/
def deleteCalls (gcs : GoogleCloudStorage) (key : String) : List ClientCall :=
  [.Bucket gcs.config.Bucket, .Object gcs.config.Bucket (gcs.Path key),
   .Delete gcs.config.Bucket (gcs.Path key)]

/-! ## The type resolver: one pass of the loop, and a sample package `types` -/

/-- The logical type and the value that one pass of the loop body of `Resolve`
arrives at for the entry `(k, v)`, or the error it returns. -/
def entryOutcome (T : TypesPackage) (k : String) (v : AnyValue) :
    Except GoError (DataType × AnyValue) :=
  match T.TypeFromValue (T.ReformatValue v) with
  | .error err => .error (.plain ("Error getting type of field [" ++ k ++ "]: " ++ err))
  | .ok resultColumnType =>
    match T.DefaultTypes.get k with
    | some defaultType =>
      match T.Convert defaultType (T.ReformatValue v) with
      | .error err => .error (.plain ("Error default converting field [" ++ k ++ "]: " ++ err))
      | .ok converted => .ok (defaultType, converted)
    | none => .ok (resultColumnType, T.ReformatValue v)

/-- The number written by a list of digits, most significant first. -/
def digitsValue : List Char → Nat → Option Nat
  | [], acc => some acc
  | c :: cs, acc => if c.isDigit then digitsValue cs (10 * acc + (c.toNat - 48)) else none

/-- The integer written by a string: digits with an optional sign. -/
def integerText (s : String) : Option Int :=
  match s.data with
  | [] => none
  | '-' :: c :: cs => (digitsValue (c :: cs) 0).map (fun n => - (n : Int))
  | '+' :: c :: cs => (digitsValue (c :: cs) 0).map (fun n => (n : Int))
  | c :: cs => (digitsValue (c :: cs) 0).map (fun n => (n : Int))

/-- Does the string hold only digits, signs and decimal points, with a digit? -/
def numericText (s : String) : Bool :=
  s.data.all (fun c => c.isDigit || c == '.' || c == '-' || c == '+') && s.data.any Char.isDigit

/-- Does the string start like an ISO-8601 timestamp, `dddd-dd-ddTdd:dd:dd`? -/
def timestampText (s : String) : Bool :=
  19 ≤ s.data.length
    && (List.range 19).all (fun i =>
      if i == 4 || i == 7 then s.data.getD i ' ' == '-'
      else if i == 10 then s.data.getD i ' ' == 'T'
      else if i == 13 || i == 16 then s.data.getD i ' ' == ':'
      else (s.data.getD i ' ').isDigit)

/-- Modelled from the spec: `types.ReformatValue` is not in the source under study;
"numeric strings containing only digits/sign/decimal point become numbers;
ISO-8601-looking strings become timestamps; otherwise left as-is". -/
def sampleReformatValue : AnyValue → AnyValue
  | .str s =>
    match integerText s with
    | some n => .int n
    | none =>
      if numericText s then .float s
      else if timestampText s then .time s
      else .str s
  | v => v

/-- Modelled from the spec: `types.TypeFromValue` is not in the source under study;
it infers "a logical type from the canonical value's shape (boolean, integer, float,
string, timestamp, date, or unknown for nulls/empty)". -/
def sampleTypeFromValue : AnyValue → Except String DataType
  | .null => .ok .UNKNOWN
  | .bool _ => .ok .BOOL
  | .int _ => .ok .INT64
  | .float _ => .ok .FLOAT64
  | .str _ => .ok .STRING
  | .time _ => .ok .TIMESTAMP
  | .list _ => .ok .UNKNOWN
  | .object _ => .ok .UNKNOWN

/-- Modelled from the spec: `types.Convert` is not in the source under study; it
casts "the value to that type", failing with an error naming "the offending value if
the cast is impossible". -/
def sampleConvert : DataType → AnyValue → Except String AnyValue
  | .BOOL, .bool b => .ok (.bool b)
  | .INT64, .int n => .ok (.int n)
  | .FLOAT64, .float t => .ok (.float t)
  | .FLOAT64, .int n => .ok (.float (toString n))
  | .STRING, .str s => .ok (.str s)
  | .STRING, .int n => .ok (.str (toString n))
  | .STRING, .float t => .ok (.str t)
  | .STRING, .time t => .ok (.str t)
  | .TIMESTAMP, .time t => .ok (.time t)
  | .TIMESTAMP, .str s =>
    if timestampText s then .ok (.time s) else .error ("cannot cast to TIMESTAMP: " ++ s)
  | _, _ => .error "cannot cast the value"

/-- Modelled from the spec: the functions and the table of package `types` are not in
the source under study; a sample package, in which the field names `_timestamp` and
`utc_time` have the declared default type TIMESTAMP. -/
def sampleTypes : TypesPackage :=
  { ReformatValue := sampleReformatValue
    TypeFromValue := sampleTypeFromValue
    Convert := sampleConvert
    DefaultTypes := [("_timestamp", .TIMESTAMP), ("utc_time", .TIMESTAMP)] }

/-- A record whose `_timestamp` is a timestamp and whose `utc_time` is not. -/
def sampleRecord : GoMap AnyValue :=
  [("utc_time", .str "yesterday"), ("_timestamp", .str "2022-08-18T14:17:22Z"),
   ("id", .str "17"), ("name", .str "test")]

/-- A record the sample package resolves. -/
def goodRecord : GoMap AnyValue :=
  [("_timestamp", .str "2022-08-18T14:17:22Z"), ("id", .str "17"), ("name", .str "test")]

/-! ## The dummy type resolver -/

/-- The method `DummyTypeResolver.Resolve`: one Field named `dummy`, no error; the
record is not touched. -/
def DummyTypeResolver.Resolve (object : GoMap AnyValue) (_sqlTypeHints : GoMap SQLType) :
    ResolveResult :=
  { fields := some [("dummy", NewField .UNKNOWN)], err := none, object := object }

/-- An open adapter over `client` configured for gzip-compressed CSV files. -/
def gzipCsvAdapter (client : StorageClient) : GoogleCloudStorage :=
  { config := { sampleConfig (.str "workload_identity") "" with Format := "csv", Compression := "gzip" }
    client := client, calls := [], closed := false }

/-- A client on which every call returns without error, except that deleting an
object reports the error `forbidden`. -/
def deleteFailsClient : StorageClient := fun _ c =>
  match c with
  | .Delete _ _ => .ret (some (.plain "forbidden")) []
  | _ => .ret none []

/-! ## Objects addressed by the calls -/

/-- The calls an operation made: those logged in `g` after the calls of `gcs`. -/
def GoogleCloudStorage.callsMade (gcs g : GoogleCloudStorage) : List ClientCall :=
  g.calls.drop gcs.calls.length

/-! ## The configuration source -/

/-- The struct `bulker.Config`, with the fields its uses in the source show. -/
structure Config where
  Id : String
  BulkerType : String
  DestinationConfig : AnyValue

/-- Modelled from the spec: the struct `bulker.StreamConfig` is not in the source
under study; the "stream defaults (primary key, partition strategy)". -/
structure StreamConfig where
  PrimaryKey : List String
  Partition : String

/-- The struct `DestinationConfig`. -/
structure DestinationConfig where
  WorkspaceId : String
  BatchSize : Int
  Config : Config
  StreamConfig : StreamConfig

/-- The method `DestinationConfig.Id`. -/
def DestinationConfig.Id (dc : DestinationConfig) : String :=
  dc.WorkspaceId ++ "_" ++ dc.Config.Id

/-- The constant `destinationsKey`. -/
def destinationsKey : String := "destinations"

/-- The struct `YamlConfigurationSource`; a nil map of destinations is the empty map. -/
structure YamlConfigurationSource where
  config : GoMap AnyValue
  destinations : GoMap DestinationConfig

/-- The text of the verb `%T` for a decoded YAML value. -/
def AnyValue.typeText : AnyValue → String
  | .null => "<nil>"
  | .bool _ => "bool"
  | .int _ => "int"
  | .float _ => "float64"
  | .str _ => "string"
  | .time _ => "time.Time"
  | .list _ => "[]interface \x7b\x7d"
  | .object _ => "map[string]interface \x7b\x7d"

/-- The loop of `init` over the entries still to visit. `Decode` is
`mapstructure.Decode` into a fresh `DestinationConfig`; an entry it rejects is logged
and skipped. -/
def initLoop (Decode : AnyValue → Except String DestinationConfig) :
    List (String × AnyValue) → GoMap DestinationConfig → GoMap DestinationConfig
  | [], results => results
  | (id, destination) :: rest, results =>
    match Decode destination with
    | .error _ => initLoop Decode rest results
    | .ok cfg =>
      initLoop Decode rest (results.set id { cfg with Config := { cfg.Config with Id := id } })

/-- The method `YamlConfigurationSource.init`: the returned error and the source
afterwards. -/
def YamlConfigurationSource.init (Decode : AnyValue → Except String DestinationConfig)
    (ycp : YamlConfigurationSource) : Option GoError × YamlConfigurationSource :=
  match ycp.config.get destinationsKey with
  | none => (none, ycp)
  | some (.object destinations) =>
    (none, { ycp with destinations := initLoop Decode destinations [] })
  | some destinationsRaw =>
    (some (.plain ("failed to parse destinations. Expected map[string]any got: "
        ++ destinationsRaw.typeText)), ycp)

/-- The function `NewYamlConfigurationSource`. `Unmarshal` is `yaml.Unmarshal` into
a fresh map, its error given by its text. -/
def NewYamlConfigurationSource (Unmarshal : String → Except String (GoMap AnyValue))
    (Decode : AnyValue → Except String DestinationConfig) (data : String) :
    Except GoError YamlConfigurationSource :=
  match Unmarshal data with
  | .error err => .error (.plain err)
  | .ok cfg =>
    match YamlConfigurationSource.init Decode { config := cfg, destinations := [] } with
    | (some err, _) => .error err
    | (none, y) => .ok y

/-- The loop of `GetDestinationConfigs`: slot `i` of the slice receives the next
destination. -/
def fillLoop : List (String × DestinationConfig) → Nat → List (Option DestinationConfig) →
    List (Option DestinationConfig)
  | [], _, results => results
  | (_, destination) :: rest, i, results => fillLoop rest (i + 1) (results.set i (some destination))

/-- The method `GetDestinationConfigs`: a slice of pointers, made with `nil` in every
slot (`none`) and filled by the loop. -/
def YamlConfigurationSource.GetDestinationConfigs (ycp : YamlConfigurationSource) :
    List (Option DestinationConfig) :=
  fillLoop ycp.destinations 0 (List.replicate ycp.destinations.length none)

/-- The method `GetDestinationConfig`: `none` is the nil pointer of an absent id. -/
def YamlConfigurationSource.GetDestinationConfig (ycp : YamlConfigurationSource) (id : String) :
    Option DestinationConfig :=
  ycp.destinations.get id

/-- A destination config of workspace `ws1` with the given id. -/
def sampleDestination (id : String) (BatchSize : Int) (BulkerType : String) : DestinationConfig :=
  { WorkspaceId := "ws1", BatchSize := BatchSize
    Config := { Id := id, BulkerType := BulkerType, DestinationConfig := .null }
    StreamConfig := { PrimaryKey := [], Partition := "" } }

/-- A decoder for concrete evaluations: an object entry decodes to the config of
workspace `ws1` whose id is the text under `id` (empty when there is none), any other
entry is rejected. -/
def sampleDecode : AnyValue → Except String DestinationConfig
  | .object m =>
    match GoMap.get m "id" with
    | some (.str id) => .ok (sampleDestination id 0 "postgres")
    | _ => .ok (sampleDestination "" 0 "postgres")
  | _ => .error "expected a map"

/-- A decoded YAML document with three destinations, the second of which is not a map. -/
def sampleYaml : GoMap AnyValue :=
  [("destinations", .object
      [("pg", .object [("id", .str "other")]), ("broken", .str "oops"), ("bq", .object [])])]

/-- The config `init` stores for the entry `(id, destination)`, when it decodes: the
decoded config with its id replaced by the key. -/
def decodedEntry (Decode : AnyValue → Except String DestinationConfig)
    (entry : String × AnyValue) : Option (String × DestinationConfig) :=
  match Decode entry.2 with
  | .error _ => none
  | .ok cfg => some (entry.1, { cfg with Config := { cfg.Config with Id := entry.1 } })

/-! ## The stream engine: merge on primary key -/

/-- Modelled from the spec: the stream engine is not in the source under study (only
its test `TestStreams` is). The status of a stream: "States: Active, then Completed
or Aborted". -/
inductive Status where
  | Active
  | Completed
  | Aborted
deriving DecidableEq, Repr

/-- Modelled from the spec: the struct `bulker.State` is not in the source under
study; the "per-stream outcome record: status, processed-row count, successful-row
count" (the last error left out). -/
structure State where
  Status : Status
  ProcessedRows : Nat
  SuccessfulRows : Nat
deriving DecidableEq, Repr

/-- Modelled from the spec: the write of one row under merge-on-primary-key is not in
the source under study. The row replaces the row of the destination that has its key,
and is added after the others when there is none: "the last one wins (insertion order
of the batch determines precedence)". -/
def mergeRow {ρ κ : Type} [DecidableEq κ] (key : ρ → κ) : List ρ → ρ → List ρ
  | [], r => [r]
  | x :: rest, r => if key x = key r then r :: rest else x :: mergeRow key rest r

/-- Modelled from the spec: a stream created with a primary key and merge-rows in a
buffered mode is not in the source under study; it holds its state and the records of
the commit unit, in arrival order. -/
structure MergeStream (ρ : Type) where
  state : State
  buffer : List ρ

/-- Modelled from the spec: a stream as `CreateStream` returns it. -/
def MergeStream.create (ρ : Type) : MergeStream ρ :=
  { state := { Status := .Active, ProcessedRows := 0, SuccessfulRows := 0 }, buffer := [] }

/-- Modelled from the spec: `Consume` is not in the source under study; it buffers
the record and "increments processed-row count". -/
def MergeStream.Consume {ρ : Type} (s : MergeStream ρ) (record : ρ) : MergeStream ρ :=
  { state := { s.state with ProcessedRows := s.state.ProcessedRows + 1
                            SuccessfulRows := s.state.SuccessfulRows + 1 }
    buffer := s.buffer ++ [record] }

/-- Modelled from the spec: `Complete` is not in the source under study; it
"flushes/commits buffered data" into the destination, row by row in arrival order,
"transitions to Completed" and returns the state with the destination. -/
def MergeStream.Complete {ρ κ : Type} [DecidableEq κ] (key : ρ → κ) (destination : List ρ)
    (s : MergeStream ρ) : State × List ρ :=
  ({ s.state with Status := .Completed }, s.buffer.foldl (mergeRow key) destination)

/-- Modelled from the spec: the run of the test `testStream` on an empty destination:
every record is consumed, then the stream is completed. -/
def ingestWithMerge {ρ κ : Type} [DecidableEq κ] (key : ρ → κ) (records : List ρ) :
    State × List ρ :=
  MergeStream.Complete key [] (records.foldl MergeStream.Consume (MergeStream.create ρ))

/-- A row of the test tables: the columns `_timestamp`, `id` and `name`. -/
structure TestRow where
  timestamp : String
  id : Nat
  name : String
deriving DecidableEq, Repr

/-- Modelled from the spec: the file `test_data/repeated_ids.ndjson` is not in the
source under study; its eight records are the rows the test `repeated_ids_no_pk`
expects, taken in the order of their names. -/
def repeatedIds : List TestRow :=
  [⟨"2022-08-18T14:17:22.841182Z", 1, "test"⟩, ⟨"2022-08-18T14:17:22.841182Z", 2, "test1"⟩,
   ⟨"2022-08-18T14:17:22.841182Z", 3, "test2"⟩, ⟨"2022-08-18T14:17:22.841182Z", 3, "test3"⟩,
   ⟨"2022-08-18T14:17:22.841182Z", 4, "test4"⟩, ⟨"2022-08-18T14:17:22.841182Z", 4, "test5"⟩,
   ⟨"2022-08-18T14:17:22.841182Z", 3, "test6"⟩, ⟨"2022-08-18T14:17:22.841182Z", 1, "test7"⟩]

/-! ## Properties -/

/-- C1 (defect of the code). The config whose key file is the empty string is rejected
by `Validate` ("Google keyFile is required parameter"), yet `NewGoogleCloudStorage`
returns an adapter for it as soon as the storage client can be created, and so does
`NewGCSBulker`: the error of `Validate` is overwritten by the result of
`storage.NewClient`. -/
theorem NewGoogleCloudStorage_drops_validation_error (IsLetterOrNumber : Char → Bool)
    (Marshal : List (String × AnyValue) → Except String String) (tc : FileConstants)
    (client : StorageClient) :
    ((sampleConfig (.str "") "").Validate IsLetterOrNumber Marshal).1
        = some (.plain "Google keyFile is required parameter")
      ∧ (∃ gcs, NewGoogleCloudStorage IsLetterOrNumber Marshal tc (fun _ => .ok client)
          (some (sampleConfig (.str "") "")) = .adapter gcs)
      ∧ (∃ b, NewGCSBulker IsLetterOrNumber Marshal tc (fun _ => .ok client)
          (fun _ => .ok { FileConfig := { Folder := "dir", Format := "", Compression := "" }
                          Bucket := "bucket1", AccessKey := .str "" })
          .null = .bulker b) := by
  refine ⟨?_, ?_, ?_⟩
  · simp [GoogleConfig.Validate, validateDataset, sampleConfig]
  · simp [NewGoogleCloudStorage, Validate, GoogleConfig.Validate, validateDataset, sampleConfig]
  · simp [NewGCSBulker, NewGoogleCloudStorage, Validate, GoogleConfig.Validate, validateDataset]

/-! ### Closed instances -/

theorem Upload_closed (tc : FileConstants) (g : GoogleCloudStorage) (hc : g.closed = true)
    (fileName : String) (fileReader : Bytes) :
    g.Upload tc fileName fileReader = (some closedError, g) := by
  simp [GoogleCloudStorage.Upload, hc]

theorem Download_closed (g : GoogleCloudStorage) (hc : g.closed = true) (key : String) :
    g.Download key = ((none, some closedError), g) := by
  simp [GoogleCloudStorage.Download, hc]

theorem DeleteObject_closed (g : GoogleCloudStorage) (hc : g.closed = true) (key : String) :
    g.DeleteObject key = (some closedError, g) := by
  simp [GoogleCloudStorage.DeleteObject, hc]

theorem ValidateWritePermission_closed (tc : FileConstants) (g : GoogleCloudStorage)
    (hc : g.closed = true) (now : String) :
    g.ValidateWritePermission tc now = (some closedError, g) := by
  simp [GoogleCloudStorage.ValidateWritePermission, GoogleCloudStorage.UploadBytes,
    Upload_closed tc g hc]

theorem Close_closed (g : GoogleCloudStorage) : g.Close.2.closed = true := by
  simp only [GoogleCloudStorage.Close]
  split <;> rfl

theorem after_closed (tc : FileConstants) (g : GoogleCloudStorage) (hc : g.closed = true)
    (op : Operation) : (g.after tc op).closed = true := by
  cases op <;>
    simp [GoogleCloudStorage.after, GoogleCloudStorage.UploadBytes, Upload_closed tc g hc,
      Download_closed g hc, DeleteObject_closed g hc, ValidateWritePermission_closed tc g hc,
      Close_closed, hc]

theorem afterAll_closed (tc : FileConstants) (ops : List Operation) :
    ∀ g : GoogleCloudStorage, g.closed = true → (g.afterAll tc ops).closed = true := by
  induction ops with
  | nil => intro g hc; simpa [GoogleCloudStorage.afterAll] using hc
  | cons op ops ih =>
    intro g hc
    simpa [GoogleCloudStorage.afterAll] using ih _ (after_closed tc g hc op)

/-- C2. Once `Close` has been called (whatever it returns, and whatever operations,
further `Close` calls included, follow it), `Upload`, `UploadBytes`, `Download`,
`DeleteObject` and `ValidateWritePermission` return the error "attempt to use closed
GoogleCloudStorage instance" and leave the adapter, hence the log of calls made on
the storage client, as it was. -/
theorem closed_instance_fails_fast (tc : FileConstants) (gcs : GoogleCloudStorage)
    (later : List Operation) :
    (∀ fileName fileReader,
        (gcs.Close.2.afterAll tc later).Upload tc fileName fileReader
          = (some (.plain "attempt to use closed GoogleCloudStorage instance"),
              gcs.Close.2.afterAll tc later))
      ∧ (∀ fileName fileBytes,
        (gcs.Close.2.afterAll tc later).UploadBytes tc fileName fileBytes
          = (some (.plain "attempt to use closed GoogleCloudStorage instance"),
              gcs.Close.2.afterAll tc later))
      ∧ (∀ key,
        (gcs.Close.2.afterAll tc later).Download key
          = ((none, some (.plain "attempt to use closed GoogleCloudStorage instance")),
              gcs.Close.2.afterAll tc later))
      ∧ (∀ key,
        (gcs.Close.2.afterAll tc later).DeleteObject key
          = (some (.plain "attempt to use closed GoogleCloudStorage instance"),
              gcs.Close.2.afterAll tc later))
      ∧ (∀ now,
        (gcs.Close.2.afterAll tc later).ValidateWritePermission tc now
          = (some (.plain "attempt to use closed GoogleCloudStorage instance"),
              gcs.Close.2.afterAll tc later)) := by
  have hc : (gcs.Close.2.afterAll tc later).closed = true :=
    afterAll_closed tc later _ (Close_closed gcs)
  refine ⟨?_, ?_, ?_, ?_, ?_⟩
  · intro fileName fileReader
    exact Upload_closed tc _ hc fileName fileReader
  · intro fileName fileBytes
    exact Upload_closed tc _ hc fileName fileBytes
  · intro key
    exact Download_closed _ hc key
  · intro key
    exact DeleteObject_closed _ hc key
  · intro now
    exact ValidateWritePermission_closed tc _ hc now

/-! ### Stream creation -/

/-- C3. `CreateStream` in mode `Stream` returns no stream and the error
`GCSAutocommitUnsupported`, and in a mode that is none of `Stream`, `Batch`,
`ReplaceTable`, `ReplacePartition` returns no stream and the error
"unsupported bulk mode: " followed by the mode; in both cases no stream constructor
is invoked, whatever the id, the table name and the options. -/
theorem CreateStream_unsupported_modes {σ ο : Type} (modes : BulkModes)
    (construct : StreamConstructor → String → GCSBulker → String → List ο → Option σ × Option GoError)
    (gcs : GCSBulker) (id tableName : String) (streamOptions : List ο) :
    ((gcs.CreateStream modes construct id tableName modes.Stream streamOptions).stream = none
      ∧ (gcs.CreateStream modes construct id tableName modes.Stream streamOptions).err
          = some (.plain "Stream mode is not supported for GCS. Please use \x27batch\x27 mode")
      ∧ (gcs.CreateStream modes construct id tableName modes.Stream streamOptions).invoked = [])
    ∧ ∀ mode : String,
        mode ≠ modes.Stream → mode ≠ modes.Batch → mode ≠ modes.ReplaceTable →
        mode ≠ modes.ReplacePartition →
        (gcs.CreateStream modes construct id tableName mode streamOptions).stream = none
          ∧ (gcs.CreateStream modes construct id tableName mode streamOptions).err
              = some (.plain ("unsupported bulk mode: " ++ mode))
          ∧ (gcs.CreateStream modes construct id tableName mode streamOptions).invoked = [] := by
  refine ⟨?_, ?_⟩
  · simp [GCSBulker.CreateStream, GCSAutocommitUnsupported]
  · intro mode h1 h2 h3 h4
    simp [GCSBulker.CreateStream, h1, h2, h3, h4]

/-- Witness of C3: with the modes named `stream`, `batch`, `replace_table` and
`replace_partition`, the mode `merge` is rejected. -/
theorem CreateStream_unsupported_modes_witness :
    ((⟨sampleAdapter quietClient⟩ : GCSBulker).CreateStream
        ⟨"stream", "batch", "replace_table", "replace_partition"⟩
        (fun _ _ _ _ (_ : List String) => ((some "s" : Option String), none))
        "id1" "table1" "merge" []).err
      = some (.plain "unsupported bulk mode: merge") :=
  ((CreateStream_unsupported_modes ⟨"stream", "batch", "replace_table", "replace_partition"⟩
      (fun _ _ _ _ (_ : List String) => ((some "s" : Option String), none))
      ⟨sampleAdapter quietClient⟩ "id1" "table1" []).2 "merge"
      (by decide) (by decide) (by decide) (by decide)).2.1

/-! ### Validation of the config -/

theorem checkSymbols_eq_none (IsLetterOrNumber : Char → Bool) (l : List Char) :
    checkSymbols IsLetterOrNumber l = none
      ↔ ∀ c ∈ l, c = '_' ∨ IsLetterOrNumber c = true := by
  induction l with
  | nil => simp [checkSymbols]
  | cons a l ih =>
    by_cases h : a = '_' ∨ IsLetterOrNumber a = true
    · rcases h with h | h <;> simp [checkSymbols, h, ih]
    · push_neg at h
      simp [checkSymbols, h.1, h.2]

theorem checkSymbols_eq_some (IsLetterOrNumber : Char → Bool) (l : List Char) (e : GoError)
    (h : checkSymbols IsLetterOrNumber l = some e) :
    ∃ pre c post, l = pre ++ c :: post
      ∧ (∀ x ∈ pre, x = '_' ∨ IsLetterOrNumber x = true)
      ∧ c ≠ '_' ∧ IsLetterOrNumber c = false
      ∧ e = .plain (ErrMalformedBQDatasetText ++ ": \x27" ++ String.singleton c ++ "\x27") := by
  induction l with
  | nil => simp [checkSymbols] at h
  | cons a l ih =>
    by_cases ha : a = '_' ∨ IsLetterOrNumber a = true
    · have h2 : checkSymbols IsLetterOrNumber l = some e := by
        rcases ha with ha | ha <;> simpa [checkSymbols, ha] using h
      obtain ⟨pre, c, post, hl, hpre, hc1, hc2, he⟩ := ih h2
      refine ⟨a :: pre, c, post, by simp [hl], ?_, hc1, hc2, he⟩
      intro x hx
      rcases List.mem_cons.1 hx with hx | hx
      · exact hx ▸ ha
      · exact hpre x hx
    · push_neg at ha
      refine ⟨[], a, l, rfl, by simp, ha.1, by simpa using ha.2, ?_⟩
      have := h
      simp [checkSymbols, ha.1, ha.2] at this
      exact this.symm

theorem utf8ByteSize_go_ge (l : List Char) : l.length ≤ String.utf8ByteSize.go l := by
  induction l with
  | nil => simp [String.utf8ByteSize.go]
  | cons a l ih =>
    have := Char.utf8Size_pos a
    simp only [String.utf8ByteSize.go, List.length_cons]
    omega

theorem length_le_utf8ByteSize (s : String) : s.length ≤ s.utf8ByteSize := by
  cases s with
  | mk l => simpa [String.utf8ByteSize, String.length] using utf8ByteSize_go_ge l

theorem validateDataset_eq_none (IsLetterOrNumber : Char → Bool) (Dataset : String) :
    validateDataset IsLetterOrNumber Dataset = none
      ↔ Dataset = "" ∨ (Dataset.utf8ByteSize ≤ 1024
          ∧ ∀ c ∈ Dataset.data, c = '_' ∨ IsLetterOrNumber c = true) := by
  unfold validateDataset
  by_cases h : Dataset = ""
  · simp [h]
  · by_cases h2 : Dataset.utf8ByteSize > 1024
    · simp [h, h2]
    · simp [h, h2, checkSymbols_eq_none, Nat.le_of_not_gt h2]

/-- C7. On a config whose dataset is empty or valid, `Validate` succeeds exactly when
the key file is a non-empty object that serialises as JSON or a non-empty string. It
then sets the credentials by shape: the serialised object as JSON credentials; nothing
for the string "workload_identity"; the string itself as JSON credentials when it
contains an opening brace; otherwise the string as the path of a credentials file.
It fails for the empty object, the empty string and every value that is neither an
object nor a string, the absent (nil) key file included. -/
theorem Validate_classifies_keyFile (IsLetterOrNumber : Char → Bool)
    (Marshal : List (String × AnyValue) → Except String String) (gc : GoogleConfig)
    (hd : gc.Dataset = "" ∨ (gc.Dataset.utf8ByteSize ≤ 1024
      ∧ ∀ c ∈ gc.Dataset.data, c = '_' ∨ IsLetterOrNumber c = true)) :
    ((gc.Validate IsLetterOrNumber Marshal).1 = none
        ↔ (∃ m json, gc.KeyFile = .object m ∧ m ≠ [] ∧ Marshal m = .ok json)
          ∨ (∃ s, gc.KeyFile = .str s ∧ s ≠ ""))
      ∧ (∀ m json, gc.KeyFile = .object m → m ≠ [] → Marshal m = .ok json →
          gc.Validate IsLetterOrNumber Marshal
            = (none, { gc with Credentials := some (.WithCredentialsJSON json) }))
      ∧ (gc.KeyFile = .str "workload_identity" →
          gc.Validate IsLetterOrNumber Marshal = (none, gc))
      ∧ (∀ s, gc.KeyFile = .str s → s ≠ "" → s ≠ "workload_identity" →
          stringsContains s "\x7b" = true →
          gc.Validate IsLetterOrNumber Marshal
            = (none, { gc with Credentials := some (.WithCredentialsJSON s) }))
      ∧ (∀ s, gc.KeyFile = .str s → s ≠ "" → s ≠ "workload_identity" →
          stringsContains s "\x7b" = false →
          gc.Validate IsLetterOrNumber Marshal
            = (none, { gc with Credentials := some (.WithCredentialsFile s) }))
      ∧ (gc.KeyFile = .object [] →
          gc.Validate IsLetterOrNumber Marshal
            = (some (.plain "Google keyFile is required parameter"), gc))
      ∧ (gc.KeyFile = .str "" →
          gc.Validate IsLetterOrNumber Marshal
            = (some (.plain "Google keyFile is required parameter"), gc))
      ∧ ((∀ m, gc.KeyFile ≠ .object m) → (∀ s, gc.KeyFile ≠ .str s) →
          gc.Validate IsLetterOrNumber Marshal
            = (some (.plain "Google key_file must be string or json object"), gc)) := by
  have hv : validateDataset IsLetterOrNumber gc.Dataset = none :=
    (validateDataset_eq_none IsLetterOrNumber gc.Dataset).2 hd
  refine ⟨?_, ?_, ?_, ?_, ?_, ?_, ?_, ?_⟩
  · unfold GoogleConfig.Validate
    rw [hv]
    cases hk : gc.KeyFile with
    | object m =>
      cases m with
      | nil => simp
      | cons a m =>
        cases hm : Marshal (a :: m) with
        | error err => simp [hm]
        | ok json => simp [hm]
    | str s =>
      by_cases h1 : s = "workload_identity"
      · simp [h1]
      · by_cases h2 : s = ""
        · simp [h1, h2]
        · by_cases h3 : stringsContains s "\x7b" = true <;> simp [h1, h2, h3]
    | _ => simp
  · intro m json hk hm hj
    have hlen : m.length ≠ 0 := by simpa using hm
    simp [GoogleConfig.Validate, hv, hk, hj, hm]
  · intro hk
    simp [GoogleConfig.Validate, hv, hk]
  · intro s hk h1 h2 h3
    simp [GoogleConfig.Validate, hv, hk, h1, h2, h3]
  · intro s hk h1 h2 h3
    simp [GoogleConfig.Validate, hv, hk, h1, h2, h3]
  · intro hk
    simp [GoogleConfig.Validate, hv, hk]
  · intro hk
    simp [GoogleConfig.Validate, hv, hk]
  · intro ho hs
    unfold GoogleConfig.Validate
    rw [hv]
    cases hk : gc.KeyFile with
    | object m => exact absurd hk (ho m)
    | str s => exact absurd hk (hs s)
    | _ => simp

/-- Witness of C7: with dataset `events_2024` and the key file `/etc/keys/gcs.json`,
validation succeeds and sets credentials read from that file. -/
theorem Validate_classifies_keyFile_witness :
    (sampleConfig (.str "/etc/keys/gcs.json") "events_2024").Validate asciiLetterOrNumber
        (fun _ => .error "unused")
      = (none, { sampleConfig (.str "/etc/keys/gcs.json") "events_2024" with
                  Credentials := some (.WithCredentialsFile "/etc/keys/gcs.json") }) :=
  (Validate_classifies_keyFile asciiLetterOrNumber (fun _ => .error "unused")
      (sampleConfig (.str "/etc/keys/gcs.json") "events_2024")
      (Or.inr ⟨by decide, by decide⟩)).2.2.2.2.1
    "/etc/keys/gcs.json" rfl (by decide) (by decide) (by decide)

/-- C8, counterexample. For the dataset `my-dataset` (not longer than 1024, with the
symbol `-`) `Validate` does not return `ErrMalformedBQDataset`: it returns a new
error whose text is that of `ErrMalformedBQDataset` followed by the offending symbol. -/
theorem Validate_bad_symbol_not_ErrMalformedBQDataset :
    ((sampleConfig (.str "workload_identity") "my-dataset").Validate asciiLetterOrNumber
        (fun _ => .error "unused")).1
      = some (.plain ("bq_dataset must be alphanumeric (plus underscores) and must be at most "
          ++ "1024 characters long: \x27-\x27"))
    ∧ ((sampleConfig (.str "workload_identity") "my-dataset").Validate asciiLetterOrNumber
        (fun _ => .error "unused")).1
      ≠ some ErrMalformedBQDataset := by
  decide

/-- C8, as amended. For a non-empty dataset, whatever the key file: `Validate` returns
no error only if the dataset has at most 1024 characters, each a letter, a number or
an underscore; it returns `ErrMalformedBQDataset` itself when the dataset is longer
than 1024 bytes; otherwise, when some symbol is neither a letter or number nor an
underscore, it returns a new error whose text is that of `ErrMalformedBQDataset`
followed by a colon and the first such symbol in quotes. In both failing cases the
config is left as it was. -/
theorem Validate_dataset (IsLetterOrNumber : Char → Bool)
    (Marshal : List (String × AnyValue) → Except String String) (gc : GoogleConfig)
    (hne : gc.Dataset ≠ "") :
    ((gc.Validate IsLetterOrNumber Marshal).1 = none →
        gc.Dataset.length ≤ 1024
          ∧ ∀ c ∈ gc.Dataset.data, c = '_' ∨ IsLetterOrNumber c = true)
      ∧ (gc.Dataset.utf8ByteSize > 1024 →
          gc.Validate IsLetterOrNumber Marshal = (some ErrMalformedBQDataset, gc))
      ∧ (gc.Dataset.length > 1024 →
          gc.Validate IsLetterOrNumber Marshal = (some ErrMalformedBQDataset, gc))
      ∧ (gc.Dataset.utf8ByteSize ≤ 1024 →
          (∃ c ∈ gc.Dataset.data, c ≠ '_' ∧ IsLetterOrNumber c = false) →
          ∃ pre c post, gc.Dataset.data = pre ++ c :: post
            ∧ (∀ x ∈ pre, x = '_' ∨ IsLetterOrNumber x = true)
            ∧ c ≠ '_' ∧ IsLetterOrNumber c = false
            ∧ gc.Validate IsLetterOrNumber Marshal
                = (some (.plain ("bq_dataset must be alphanumeric (plus underscores) and must be "
                    ++ "at most 1024 characters long" ++ ": \x27" ++ String.singleton c ++ "\x27")),
                   gc)) := by
  have hlong : gc.Dataset.utf8ByteSize > 1024 →
      gc.Validate IsLetterOrNumber Marshal = (some ErrMalformedBQDataset, gc) := by
    intro h
    simp [GoogleConfig.Validate, validateDataset, hne, h]
  refine ⟨?_, hlong, ?_, ?_⟩
  · intro h
    have hv : validateDataset IsLetterOrNumber gc.Dataset = none := by
      cases hvd : validateDataset IsLetterOrNumber gc.Dataset with
      | none => rfl
      | some e => simp [GoogleConfig.Validate, hvd] at h
    rcases (validateDataset_eq_none IsLetterOrNumber gc.Dataset).1 hv with h0 | ⟨h1, h2⟩
    · exact absurd h0 hne
    · exact ⟨le_trans (length_le_utf8ByteSize gc.Dataset) h1, h2⟩
  · intro h
    exact hlong (lt_of_lt_of_le h (length_le_utf8ByteSize gc.Dataset))
  · intro hsz ⟨c, hc, hc1, hc2⟩
    have hsz2 : ¬ gc.Dataset.utf8ByteSize > 1024 := Nat.not_lt.2 hsz
    cases hcs : checkSymbols IsLetterOrNumber gc.Dataset.data with
    | none =>
      rcases (checkSymbols_eq_none IsLetterOrNumber gc.Dataset.data).1 hcs c hc with h | h
      · exact absurd h hc1
      · rw [hc2] at h; exact absurd h (by decide)
    | some e =>
      obtain ⟨pre, c2, post, hl, hpre, h1, h2, he⟩ :=
        checkSymbols_eq_some IsLetterOrNumber gc.Dataset.data e hcs
      refine ⟨pre, c2, post, hl, hpre, h1, h2, ?_⟩
      have hvd : validateDataset IsLetterOrNumber gc.Dataset = some e := by
        simp [validateDataset, hne, hsz2, hcs]
      rw [he] at hvd
      simp [GoogleConfig.Validate, hvd, ErrMalformedBQDatasetText]

/-- Witness of C8: the dataset `a b` with an object key file is rejected at the space. -/
theorem Validate_dataset_witness :
    ∃ pre c post, (sampleConfig (.object [("k", .null)]) "a b").Dataset.data = pre ++ c :: post
      ∧ (∀ x ∈ pre, x = '_' ∨ asciiLetterOrNumber x = true)
      ∧ c ≠ '_' ∧ asciiLetterOrNumber c = false
      ∧ (sampleConfig (.object [("k", .null)]) "a b").Validate asciiLetterOrNumber
            (fun _ => .ok "json")
          = (some (.plain ("bq_dataset must be alphanumeric (plus underscores) and must be "
              ++ "at most 1024 characters long" ++ ": \x27" ++ String.singleton c ++ "\x27")),
             sampleConfig (.object [("k", .null)]) "a b") :=
  (Validate_dataset asciiLetterOrNumber (fun _ => .ok "json")
      (sampleConfig (.object [("k", .null)]) "a b") (by decide)).2.2.2
    (by decide) ⟨' ', by decide, by decide, by decide⟩

/-! ### Panics -/

theorem Upload_panic (tc : FileConstants) (gcs : GoogleCloudStorage) (fileName : String)
    (fileReader : Bytes)
    (h : gcs.panicRaised (gcs.Upload tc fileName fileReader).2 = true) :
    ∃ r, (gcs.Upload tc fileName fileReader).1
      = some (uploadPanicError gcs (gcs.Path fileName) r) := by
  revert h
  simp only [GoogleCloudStorage.Upload, GoogleCloudStorage.panicRaised]
  split
  · simp [panicAmong]
  · repeat' split
    all_goals simp_all [panicAmong, Response.isPanic, GoogleCloudStorage.respond,
      GoogleCloudStorage.logged]

theorem Download_panic (gcs : GoogleCloudStorage) (key : String)
    (h : gcs.panicRaised (gcs.Download key).2 = true) :
    ∃ r, (gcs.Download key).1.2 = some (downloadPanicError gcs (gcs.Path key) r)
      ∧ ((gcs.Download key).1.1 = none
          ∨ ∃ data r2, (gcs.Download key).1.1 = some data
              ∧ gcs.respond ((downloadCalls gcs key).take 3)
                  (.ReadAll gcs.config.Bucket (gcs.Path key)) = .ret none data
              ∧ gcs.respond ((downloadCalls gcs key).take 4)
                  (.ReaderClose gcs.config.Bucket (gcs.Path key)) = .panic r2) := by
  revert h
  simp only [GoogleCloudStorage.Download, GoogleCloudStorage.panicRaised, deferredReaderClose,
    downloadCalls]
  split
  · simp [panicAmong]
  · repeat' split
    all_goals simp_all [panicAmong, Response.isPanic, GoogleCloudStorage.respond,
      GoogleCloudStorage.logged]

theorem DeleteObject_panic (gcs : GoogleCloudStorage) (key : String)
    (h : gcs.panicRaised (gcs.DeleteObject key).2 = true) :
    ∃ r, (gcs.DeleteObject key).1 = some (deletePanicError gcs (gcs.Path key) r) := by
  revert h
  simp only [GoogleCloudStorage.DeleteObject, GoogleCloudStorage.panicRaised]
  split
  · simp [panicAmong]
  · repeat' split
    all_goals simp_all [panicAmong, Response.isPanic, GoogleCloudStorage.respond,
      GoogleCloudStorage.logged]

theorem stringsContains_intro (s sub a c : String) (h : s = a ++ sub ++ c) :
    stringsContains s sub = true := by
  subst h
  simp only [stringsContains, String.data_append, decide_eq_true_eq]
  exact ⟨a.data, c.data, rfl⟩

theorem uploadPanicError_identity (gcs : GoogleCloudStorage) (fileName r : String) :
    ∃ text, uploadPanicError gcs fileName r = .plain text
      ∧ stringsContains text fileName = true
      ∧ stringsContains text gcs.config.Bucket = true := by
  refine ⟨_, rfl, ?_, ?_⟩
  · exact stringsContains_intro _ _ "panic while uploading file: "
      (" to GCC project: " ++ gcs.config.Project ++ " bucket: " ++ gcs.config.Bucket
        ++ " dataset: " ++ gcs.config.Dataset ++ " : " ++ r) (by simp [String.append_assoc])
  · exact stringsContains_intro _ _
      ("panic while uploading file: " ++ fileName ++ " to GCC project: " ++ gcs.config.Project
        ++ " bucket: ")
      (" dataset: " ++ gcs.config.Dataset ++ " : " ++ r) (by simp [String.append_assoc])

theorem downloadPanicError_identity (gcs : GoogleCloudStorage) (key r : String) :
    ∃ text, downloadPanicError gcs key r = .plain text
      ∧ stringsContains text key = true
      ∧ stringsContains text gcs.config.Bucket = true := by
  refine ⟨_, rfl, ?_, ?_⟩
  · exact stringsContains_intro _ _ "panic while downloading file: "
      (" from GCC project: " ++ gcs.config.Project ++ " bucket: " ++ gcs.config.Bucket
        ++ " dataset: " ++ gcs.config.Dataset ++ " : " ++ r) (by simp [String.append_assoc])
  · exact stringsContains_intro _ _
      ("panic while downloading file: " ++ key ++ " from GCC project: " ++ gcs.config.Project
        ++ " bucket: ")
      (" dataset: " ++ gcs.config.Dataset ++ " : " ++ r) (by simp [String.append_assoc])

theorem deletePanicError_identity (gcs : GoogleCloudStorage) (key r : String) :
    ∃ text, deletePanicError gcs key r = .plain text
      ∧ stringsContains text key = true
      ∧ stringsContains text gcs.config.Bucket = true := by
  refine ⟨_, rfl, ?_, ?_⟩
  · exact stringsContains_intro _ _ "panic while deleting file: "
      (" to GCC project: " ++ gcs.config.Project ++ " bucket: " ++ gcs.config.Bucket
        ++ " dataset: " ++ gcs.config.Dataset ++ " : " ++ r) (by simp [String.append_assoc])
  · exact stringsContains_intro _ _
      ("panic while deleting file: " ++ key ++ " to GCC project: " ++ gcs.config.Project
        ++ " bucket: ")
      (" dataset: " ++ gcs.config.Dataset ++ " : " ++ r) (by simp [String.append_assoc])

/-- C4, counterexample. On a client whose reader panics when closed, `Download` of
`f.ndjson` recovers the panic of the deferred `r.Close()` and returns the error, but
together with the two bytes already read: the bytes result is not nil. -/
theorem Download_panic_keeps_bytes :
    (sampleAdapter readerClosePanicsClient).panicRaised
        ((sampleAdapter readerClosePanicsClient).Download "f.ndjson").2 = true
      ∧ ((sampleAdapter readerClosePanicsClient).Download "f.ndjson").1
        = (some [104, 105],
           some (.plain ("panic while downloading file: dir/f.ndjson from GCC project: proj "
              ++ "bucket: bucket1 dataset:  : close failed")))
      ∧ ((sampleAdapter readerClosePanicsClient).Download "f.ndjson").1.1 ≠ none := by
  decide

/-- C4, as amended. Whatever the file name and the storage client, when a call made
by `Upload`, `Download` or `DeleteObject` panics with a non-nil value, the operation
returns an error made by the panic handler, whose text contains the folder-prefixed
path and the configured bucket. For `Download` the bytes result is then nil, unless
the panic is that of the deferred reader close after a read that succeeded: the bytes
read are then returned with the error. -/
theorem panic_becomes_error (tc : FileConstants) (gcs : GoogleCloudStorage)
    (fileName : String) (fileReader : Bytes) :
    (gcs.panicRaised (gcs.Upload tc fileName fileReader).2 = true →
        ∃ text, (gcs.Upload tc fileName fileReader).1 = some (.plain text)
          ∧ stringsContains text (gcs.Path fileName) = true
          ∧ stringsContains text gcs.config.Bucket = true)
      ∧ (gcs.panicRaised (gcs.Download fileName).2 = true →
        (∃ text, (gcs.Download fileName).1.2 = some (.plain text)
          ∧ stringsContains text (gcs.Path fileName) = true
          ∧ stringsContains text gcs.config.Bucket = true)
        ∧ ((gcs.Download fileName).1.1 = none
          ∨ ∃ data r, (gcs.Download fileName).1.1 = some data
              ∧ gcs.respond ((downloadCalls gcs fileName).take 3)
                  (.ReadAll gcs.config.Bucket (gcs.Path fileName)) = .ret none data
              ∧ gcs.respond ((downloadCalls gcs fileName).take 4)
                  (.ReaderClose gcs.config.Bucket (gcs.Path fileName)) = .panic r))
      ∧ (gcs.panicRaised (gcs.DeleteObject fileName).2 = true →
        ∃ text, (gcs.DeleteObject fileName).1 = some (.plain text)
          ∧ stringsContains text (gcs.Path fileName) = true
          ∧ stringsContains text gcs.config.Bucket = true) := by
  refine ⟨?_, ?_, ?_⟩
  · intro h
    obtain ⟨r, hr⟩ := Upload_panic tc gcs fileName fileReader h
    obtain ⟨text, ht, h1, h2⟩ := uploadPanicError_identity gcs (gcs.Path fileName) r
    exact ⟨text, by rw [hr, ht], h1, h2⟩
  · intro h
    obtain ⟨r, hr, hb⟩ := Download_panic gcs fileName h
    obtain ⟨text, ht, h1, h2⟩ := downloadPanicError_identity gcs (gcs.Path fileName) r
    exact ⟨⟨text, by rw [hr, ht], h1, h2⟩, hb⟩
  · intro h
    obtain ⟨r, hr⟩ := DeleteObject_panic gcs fileName h
    obtain ⟨text, ht, h1, h2⟩ := deletePanicError_identity gcs (gcs.Path fileName) r
    exact ⟨text, by rw [hr, ht], h1, h2⟩

/-- Witness of C4: on a client every call of which panics, `Upload` of `f.ndjson`
returns an error naming `dir/f.ndjson` and `bucket1`. -/
theorem panic_becomes_error_witness :
    ∃ text, ((sampleAdapter panickingClient).Upload sampleConstants "f.ndjson" [1, 2]).1
        = some (.plain text)
      ∧ stringsContains text ((sampleAdapter panickingClient).Path "f.ndjson") = true
      ∧ stringsContains text (sampleAdapter panickingClient).config.Bucket = true :=
  (panic_becomes_error sampleConstants (sampleAdapter panickingClient) "f.ndjson" [1, 2]).1
    (by decide)

/-- C6, counterexample. On an open adapter whose client reports the error `unavailable`
to the read and then panics in the deferred reader close, `Download` does not return
the read error wrapped in a `SaveOnStageError`: the panic handler replaces it by its
plain error. -/
theorem Download_read_error_lost_to_close_panic :
    (sampleAdapter readFailsClosePanicsClient).closed = false
      ∧ (sampleAdapter readFailsClosePanicsClient).reported
          (downloadCalls (sampleAdapter readFailsClosePanicsClient) "f.ndjson") 3
          = some (.plain "unavailable")
      ∧ ((sampleAdapter readFailsClosePanicsClient).Download "f.ndjson").1
          = (none,
             some (.plain ("panic while downloading file: dir/f.ndjson from GCC project: proj "
                ++ "bucket: bucket1 dataset:  : close failed")))
      ∧ ((sampleAdapter readFailsClosePanicsClient).Download "f.ndjson").1.2.map
          GoError.isSaveOnStage = some false := by
  decide

theorem Upload_copy_error (tc : FileConstants) (gcs : GoogleCloudStorage)
    (fileName : String) (fileReader : Bytes) (hopen : gcs.closed = false) (e : GoError)
    (hmade : 3 < (gcs.callsMade (gcs.Upload tc fileName fileReader).2).length)
    (hrep : gcs.reported (uploadCalls tc gcs fileName fileReader) 3 = some e) :
    gcs.Upload tc fileName fileReader
      = (some (.saveOnStage e "failed to write file to google cloud storage"
            { Bucket := gcs.config.Bucket, Statement := "file: " ++ gcs.Path fileName }),
         gcs.logged ((uploadCalls tc gcs fileName fileReader).take 4)) := by
  revert hmade hrep
  simp only [GoogleCloudStorage.Upload, GoogleCloudStorage.reported, uploadCalls, hopen,
    GoogleCloudStorage.callsMade]
  repeat' split
  all_goals simp_all [Response.err, stageError, GoogleCloudStorage.logged,
    GoogleCloudStorage.respond]


theorem Upload_close_error (tc : FileConstants) (gcs : GoogleCloudStorage)
    (fileName : String) (fileReader : Bytes) (hopen : gcs.closed = false) (e : GoError)
    (hmade : 4 < (gcs.callsMade (gcs.Upload tc fileName fileReader).2).length)
    (hrep : gcs.reported (uploadCalls tc gcs fileName fileReader) 4 = some e) :
    gcs.Upload tc fileName fileReader
      = (some (.saveOnStage e "failed to close google cloud writer"
            { Bucket := gcs.config.Bucket, Statement := "file: " ++ gcs.Path fileName }),
         gcs.logged ((uploadCalls tc gcs fileName fileReader).take 5)) := by
  revert hmade hrep
  simp only [GoogleCloudStorage.Upload, GoogleCloudStorage.reported, uploadCalls, hopen,
    GoogleCloudStorage.callsMade]
  repeat' split
  all_goals simp_all [Response.err, stageError, GoogleCloudStorage.logged,
    GoogleCloudStorage.respond]

theorem Upload_update_error (tc : FileConstants) (gcs : GoogleCloudStorage)
    (fileName : String) (fileReader : Bytes) (hopen : gcs.closed = false) (e : GoError)
    (hmade : 5 < (gcs.callsMade (gcs.Upload tc fileName fileReader).2).length)
    (hrep : gcs.reported (uploadCalls tc gcs fileName fileReader) 5 = some e) :
    gcs.Upload tc fileName fileReader
      = (some (.saveOnStage e "failed to set Content-Type metadata"
            { Bucket := gcs.config.Bucket, Statement := "file: " ++ gcs.Path fileName }),
         gcs.logged (uploadCalls tc gcs fileName fileReader)) := by
  revert hmade hrep
  simp only [GoogleCloudStorage.Upload, GoogleCloudStorage.reported, uploadCalls, hopen,
    GoogleCloudStorage.callsMade]
  repeat' split
  all_goals simp_all [Response.err, stageError, GoogleCloudStorage.logged,
    GoogleCloudStorage.respond]

theorem Upload_nil_iff (tc : FileConstants) (gcs : GoogleCloudStorage)
    (fileName : String) (fileReader : Bytes) (hopen : gcs.closed = false) :
    (gcs.Upload tc fileName fileReader).1 = none
      ↔ gcs.callsMade (gcs.Upload tc fileName fileReader).2
          = uploadCalls tc gcs fileName fileReader
        ∧ gcs.reported (uploadCalls tc gcs fileName fileReader) 3 = none
        ∧ gcs.reported (uploadCalls tc gcs fileName fileReader) 4 = none
        ∧ gcs.reported (uploadCalls tc gcs fileName fileReader) 5 = none
        ∧ gcs.panicRaised (gcs.Upload tc fileName fileReader).2 = false := by
  simp only [GoogleCloudStorage.Upload, GoogleCloudStorage.reported, uploadCalls, hopen,
    GoogleCloudStorage.callsMade, GoogleCloudStorage.panicRaised]
  repeat' split
  all_goals simp_all [Response.err, stageError, GoogleCloudStorage.logged,
    GoogleCloudStorage.respond, panicAmong, Response.isPanic]


theorem Download_newReader_error (gcs : GoogleCloudStorage) (fileName : String)
    (hopen : gcs.closed = false) (e : GoError)
    (hmade : 2 < (gcs.callsMade (gcs.Download fileName).2).length)
    (hrep : gcs.reported (downloadCalls gcs fileName) 2 = some e) :
    gcs.Download fileName
      = ((none, some (.saveOnStage e "failed to create google cloud reader"
            { Bucket := gcs.config.Bucket, Statement := "file: " ++ gcs.Path fileName })),
         gcs.logged ((downloadCalls gcs fileName).take 3)) := by
  revert hmade hrep
  simp only [GoogleCloudStorage.Download, GoogleCloudStorage.reported, downloadCalls, hopen,
    deferredReaderClose, GoogleCloudStorage.callsMade]
  repeat' split
  all_goals simp_all [Response.err, stageError, GoogleCloudStorage.logged,
    GoogleCloudStorage.respond]

theorem Download_read_error (gcs : GoogleCloudStorage) (fileName : String)
    (hopen : gcs.closed = false) (e : GoError)
    (hmade : 3 < (gcs.callsMade (gcs.Download fileName).2).length)
    (hrep : gcs.reported (downloadCalls gcs fileName) 3 = some e) :
    (gcs.Download fileName).2 = gcs.logged (downloadCalls gcs fileName)
      ∧ ((∀ r, gcs.respond ((downloadCalls gcs fileName).take 4)
            (.ReaderClose gcs.config.Bucket (gcs.Path fileName)) ≠ .panic r) →
          (gcs.Download fileName).1
            = (none, some (.saveOnStage e "failed to read google cloud reader"
                { Bucket := gcs.config.Bucket, Statement := "file: " ++ gcs.Path fileName })))
      ∧ (∀ r, gcs.respond ((downloadCalls gcs fileName).take 4)
            (.ReaderClose gcs.config.Bucket (gcs.Path fileName)) = .panic r →
          (gcs.Download fileName).1
            = (none, some (downloadPanicError gcs (gcs.Path fileName) r))) := by
  revert hmade hrep
  simp only [GoogleCloudStorage.Download, GoogleCloudStorage.reported, downloadCalls, hopen,
    deferredReaderClose, GoogleCloudStorage.callsMade]
  repeat' split
  all_goals simp_all [Response.err, stageError, GoogleCloudStorage.logged,
    GoogleCloudStorage.respond]

theorem Download_nil_iff (gcs : GoogleCloudStorage) (fileName : String)
    (hopen : gcs.closed = false) :
    (gcs.Download fileName).1.2 = none
      ↔ gcs.callsMade (gcs.Download fileName).2 = downloadCalls gcs fileName
        ∧ gcs.reported (downloadCalls gcs fileName) 2 = none
        ∧ gcs.reported (downloadCalls gcs fileName) 3 = none
        ∧ gcs.panicRaised (gcs.Download fileName).2 = false := by
  simp only [GoogleCloudStorage.Download, GoogleCloudStorage.reported, downloadCalls, hopen,
    deferredReaderClose, GoogleCloudStorage.callsMade, GoogleCloudStorage.panicRaised]
  repeat' split
  all_goals simp_all [Response.err, stageError, GoogleCloudStorage.logged,
    GoogleCloudStorage.respond, panicAmong, Response.isPanic]

theorem DeleteObject_delete_error (gcs : GoogleCloudStorage) (fileName : String)
    (hopen : gcs.closed = false) (e : GoError)
    (hmade : 2 < (gcs.callsMade (gcs.DeleteObject fileName).2).length)
    (hrep : gcs.reported (deleteCalls gcs fileName) 2 = some e) :
    gcs.DeleteObject fileName
      = (some (.saveOnStage e "failed to delete from google cloud"
            { Bucket := gcs.config.Bucket, Statement := "file: " ++ gcs.Path fileName }),
         gcs.logged (deleteCalls gcs fileName)) := by
  revert hmade hrep
  simp only [GoogleCloudStorage.DeleteObject, GoogleCloudStorage.reported, deleteCalls, hopen,
    GoogleCloudStorage.callsMade]
  repeat' split
  all_goals simp_all [Response.err, stageError, GoogleCloudStorage.logged,
    GoogleCloudStorage.respond]

theorem DeleteObject_nil_iff (gcs : GoogleCloudStorage) (fileName : String)
    (hopen : gcs.closed = false) :
    (gcs.DeleteObject fileName).1 = none
      ↔ gcs.callsMade (gcs.DeleteObject fileName).2 = deleteCalls gcs fileName
        ∧ gcs.reported (deleteCalls gcs fileName) 2 = none
        ∧ gcs.panicRaised (gcs.DeleteObject fileName).2 = false := by
  simp only [GoogleCloudStorage.DeleteObject, GoogleCloudStorage.reported, deleteCalls, hopen,
    GoogleCloudStorage.callsMade, GoogleCloudStorage.panicRaised]
  repeat' split
  all_goals simp_all [Response.err, stageError, GoogleCloudStorage.logged,
    GoogleCloudStorage.respond, panicAmong, Response.isPanic]

/-- C6, as amended. On an open adapter, whatever the client does otherwise: an error
the client reports to the copy, the writer close or the metadata update of `Upload`,
to the reader creation of `Download`, or to the delete of `DeleteObject`, the call
having been made, ends the operation at that call (the log shows each call made once,
none repeated) and is returned wrapped in a `SaveOnStageError` whose payload has the
configured bucket and the statement "file: " followed by the path. An error reported
to the read of `Download` is followed by the deferred reader close only, and is
returned wrapped in the same way unless that close panics, in which case the error of
the panic handler is returned instead. Each operation returns a nil error exactly
when all its calls were made, none of these calls reported an error and none
panicked (panics being those with a non-nil value). -/
theorem reported_errors_are_wrapped (tc : FileConstants) (gcs : GoogleCloudStorage)
    (fileName : String) (fileReader : Bytes) (hopen : gcs.closed = false) :
    ((∀ e, 3 < (gcs.callsMade (gcs.Upload tc fileName fileReader).2).length →
        gcs.reported (uploadCalls tc gcs fileName fileReader) 3 = some e →
        gcs.Upload tc fileName fileReader
          = (some (.saveOnStage e "failed to write file to google cloud storage"
                { Bucket := gcs.config.Bucket, Statement := "file: " ++ gcs.Path fileName }),
             gcs.logged ((uploadCalls tc gcs fileName fileReader).take 4)))
      ∧ (∀ e, 4 < (gcs.callsMade (gcs.Upload tc fileName fileReader).2).length →
        gcs.reported (uploadCalls tc gcs fileName fileReader) 4 = some e →
        gcs.Upload tc fileName fileReader
          = (some (.saveOnStage e "failed to close google cloud writer"
                { Bucket := gcs.config.Bucket, Statement := "file: " ++ gcs.Path fileName }),
             gcs.logged ((uploadCalls tc gcs fileName fileReader).take 5)))
      ∧ (∀ e, 5 < (gcs.callsMade (gcs.Upload tc fileName fileReader).2).length →
        gcs.reported (uploadCalls tc gcs fileName fileReader) 5 = some e →
        gcs.Upload tc fileName fileReader
          = (some (.saveOnStage e "failed to set Content-Type metadata"
                { Bucket := gcs.config.Bucket, Statement := "file: " ++ gcs.Path fileName }),
             gcs.logged (uploadCalls tc gcs fileName fileReader)))
      ∧ ((gcs.Upload tc fileName fileReader).1 = none
          ↔ gcs.callsMade (gcs.Upload tc fileName fileReader).2
              = uploadCalls tc gcs fileName fileReader
            ∧ gcs.reported (uploadCalls tc gcs fileName fileReader) 3 = none
            ∧ gcs.reported (uploadCalls tc gcs fileName fileReader) 4 = none
            ∧ gcs.reported (uploadCalls tc gcs fileName fileReader) 5 = none
            ∧ gcs.panicRaised (gcs.Upload tc fileName fileReader).2 = false))
    ∧ ((∀ e, 2 < (gcs.callsMade (gcs.Download fileName).2).length →
        gcs.reported (downloadCalls gcs fileName) 2 = some e →
        gcs.Download fileName
          = ((none, some (.saveOnStage e "failed to create google cloud reader"
                { Bucket := gcs.config.Bucket, Statement := "file: " ++ gcs.Path fileName })),
             gcs.logged ((downloadCalls gcs fileName).take 3)))
      ∧ (∀ e, 3 < (gcs.callsMade (gcs.Download fileName).2).length →
        gcs.reported (downloadCalls gcs fileName) 3 = some e →
        (gcs.Download fileName).2 = gcs.logged (downloadCalls gcs fileName)
          ∧ ((∀ r, gcs.respond ((downloadCalls gcs fileName).take 4)
                (.ReaderClose gcs.config.Bucket (gcs.Path fileName)) ≠ .panic r) →
              (gcs.Download fileName).1
                = (none, some (.saveOnStage e "failed to read google cloud reader"
                    { Bucket := gcs.config.Bucket, Statement := "file: " ++ gcs.Path fileName })))
          ∧ (∀ r, gcs.respond ((downloadCalls gcs fileName).take 4)
                (.ReaderClose gcs.config.Bucket (gcs.Path fileName)) = .panic r →
              (gcs.Download fileName).1
                = (none, some (downloadPanicError gcs (gcs.Path fileName) r))))
      ∧ ((gcs.Download fileName).1.2 = none
          ↔ gcs.callsMade (gcs.Download fileName).2 = downloadCalls gcs fileName
            ∧ gcs.reported (downloadCalls gcs fileName) 2 = none
            ∧ gcs.reported (downloadCalls gcs fileName) 3 = none
            ∧ gcs.panicRaised (gcs.Download fileName).2 = false))
    ∧ ((∀ e, 2 < (gcs.callsMade (gcs.DeleteObject fileName).2).length →
        gcs.reported (deleteCalls gcs fileName) 2 = some e →
        gcs.DeleteObject fileName
          = (some (.saveOnStage e "failed to delete from google cloud"
                { Bucket := gcs.config.Bucket, Statement := "file: " ++ gcs.Path fileName }),
             gcs.logged (deleteCalls gcs fileName)))
      ∧ ((gcs.DeleteObject fileName).1 = none
          ↔ gcs.callsMade (gcs.DeleteObject fileName).2 = deleteCalls gcs fileName
            ∧ gcs.reported (deleteCalls gcs fileName) 2 = none
            ∧ gcs.panicRaised (gcs.DeleteObject fileName).2 = false)) := by
  exact ⟨⟨fun e h1 h2 => Upload_copy_error tc gcs fileName fileReader hopen e h1 h2,
      fun e h1 h2 => Upload_close_error tc gcs fileName fileReader hopen e h1 h2,
      fun e h1 h2 => Upload_update_error tc gcs fileName fileReader hopen e h1 h2,
      Upload_nil_iff tc gcs fileName fileReader hopen⟩,
    ⟨fun e h1 h2 => Download_newReader_error gcs fileName hopen e h1 h2,
      fun e h1 h2 => Download_read_error gcs fileName hopen e h1 h2,
      Download_nil_iff gcs fileName hopen⟩,
    ⟨fun e h1 h2 => DeleteObject_delete_error gcs fileName hopen e h1 h2,
      DeleteObject_nil_iff gcs fileName hopen⟩⟩

/-- Witness of C6: on a client every call of which reports the error `unavailable`,
`Upload` stops at the copy and returns that error wrapped. -/
theorem reported_errors_are_wrapped_witness :
    (sampleAdapter failingClient).Upload sampleConstants "f.ndjson" [1, 2]
      = (some (.saveOnStage (.plain "unavailable") "failed to write file to google cloud storage"
            { Bucket := (sampleAdapter failingClient).config.Bucket
              Statement := "file: " ++ (sampleAdapter failingClient).Path "f.ndjson" }),
         (sampleAdapter failingClient).logged
           ((uploadCalls sampleConstants (sampleAdapter failingClient) "f.ndjson" [1, 2]).take 4)) :=
  (reported_errors_are_wrapped sampleConstants (sampleAdapter failingClient) "f.ndjson" [1, 2]
      rfl).1.1 (.plain "unavailable") (by decide) (by decide)

/-! ### The type resolver -/

set_option maxRecDepth 20000

theorem GoMap.get_set_same {V : Type} (m : GoMap V) (k : String) (v : V) :
    (m.set k v).get k = some v := by
  induction m with
  | nil => simp [GoMap.set, GoMap.get, List.lookup]
  | cons p m ih =>
    obtain ⟨k', v'⟩ := p
    by_cases h : k' = k
    · subst h; simp [GoMap.set, GoMap.get, List.lookup]
    · have h2 : (k == k') = false := by simpa using fun h3 : k = k' => h h3.symm
      simp only [GoMap.set, beq_iff_eq, h, if_false]
      simpa [GoMap.get, List.lookup, h2] using ih

theorem GoMap.get_set_ne {V : Type} (m : GoMap V) (k k2 : String) (v : V) (hne : k2 ≠ k) :
    (m.set k v).get k2 = m.get k2 := by
  induction m with
  | nil =>
    have h2 : (k2 == k) = false := by simpa using hne
    simp [GoMap.set, GoMap.get, List.lookup, h2]
  | cons p m ih =>
    obtain ⟨k', v'⟩ := p
    by_cases h : k' = k
    · subst h
      have h2 : (k2 == k') = false := by simpa using hne
      simp [GoMap.set, GoMap.get, List.lookup, h2]
    · simp only [GoMap.set, beq_iff_eq, h, if_false]
      by_cases h3 : k2 = k'
      · subst h3; simp [GoMap.get, List.lookup]
      · have h4 : (k2 == k') = false := by simpa using h3
        simpa [GoMap.get, List.lookup, h4] using ih

theorem GoMap.set_set {V : Type} (m : GoMap V) (k : String) (v w : V) :
    (m.set k v).set k w = m.set k w := by
  induction m with
  | nil => simp [GoMap.set]
  | cons p m ih =>
    obtain ⟨k', v'⟩ := p
    by_cases h : k' = k
    · subst h; simp [GoMap.set]
    · simp [GoMap.set, h, ih]

theorem resolveLoop_cons (T : TypesPackage) (sqlTypeHints : GoMap SQLType) (k : String)
    (v : AnyValue) (rest : List (String × AnyValue)) (object : GoMap AnyValue)
    (Fields : GoMap Field) :
    resolveLoop T sqlTypeHints ((k, v) :: rest) object Fields
      = match entryOutcome T k v with
        | .error e => { fields := none, err := some e, object := object.set k (T.ReformatValue v) }
        | .ok (t, val) =>
          resolveLoop T sqlTypeHints rest (object.set k val)
            (Fields.set k { dataType := t, sqlTypeOverride := sqlTypeHints.get k }) := by
  simp only [resolveLoop, entryOutcome]
  cases h1 : T.TypeFromValue (T.ReformatValue v) with
  | error err => simp
  | ok t =>
    cases h2 : T.DefaultTypes.get k with
    | none => cases h : sqlTypeHints.get k <;> simp [NewField, NewFieldWithSQLType]
    | some D =>
      cases h3 : T.Convert D (T.ReformatValue v) with
      | error err => simp [h3]
      | ok c =>
        cases h : sqlTypeHints.get k <;> simp [h3, NewField, NewFieldWithSQLType, GoMap.set_set]

theorem resolveLoop_fields_iff (T : TypesPackage) (sqlTypeHints : GoMap SQLType) :
    ∀ (entries : List (String × AnyValue)) (object : GoMap AnyValue) (Fields : GoMap Field),
      ((resolveLoop T sqlTypeHints entries object Fields).err = none
        ↔ (resolveLoop T sqlTypeHints entries object Fields).fields ≠ none) := by
  intro entries
  induction entries with
  | nil => intro object Fields; simp [resolveLoop]
  | cons p rest ih =>
    intro object Fields
    obtain ⟨k, v⟩ := p
    rw [resolveLoop_cons]
    cases entryOutcome T k v with
    | error e => simp
    | ok r => exact ih _ _

theorem resolveLoop_ok (T : TypesPackage) (sqlTypeHints : GoMap SQLType) :
    ∀ (entries : List (String × AnyValue)) (object : GoMap AnyValue) (Fields : GoMap Field),
      (resolveLoop T sqlTypeHints entries object Fields).err = none →
      ∃ F, (resolveLoop T sqlTypeHints entries object Fields).fields = some F
        ∧ (∀ k, k ∉ GoMap.keys entries →
            F.get k = Fields.get k
              ∧ (resolveLoop T sqlTypeHints entries object Fields).object.get k = object.get k)
        ∧ ((GoMap.keys entries).Nodup → ∀ k v, (k, v) ∈ entries →
            ∃ t val, entryOutcome T k v = .ok (t, val)
              ∧ F.get k = some { dataType := t, sqlTypeOverride := sqlTypeHints.get k }
              ∧ (resolveLoop T sqlTypeHints entries object Fields).object.get k = some val) := by
  intro entries
  induction entries with
  | nil =>
    intro object Fields _
    exact ⟨Fields, rfl, fun k _ => ⟨rfl, rfl⟩, fun _ k v hkv => absurd hkv (List.not_mem_nil _)⟩
  | cons p rest ih =>
    intro object Fields h
    obtain ⟨k0, v0⟩ := p
    rw [resolveLoop_cons] at h ⊢
    cases ho : entryOutcome T k0 v0 with
    | error e => simp [ho] at h
    | ok r =>
      obtain ⟨t0, val0⟩ := r
      simp only [ho] at h ⊢
      obtain ⟨F, hF, hout, hin⟩ := ih _ _ h
      refine ⟨F, hF, ?_, ?_⟩
      · intro k hk
        have hk0 : k ≠ k0 := fun hh => hk (by simp [GoMap.keys, hh])
        have hkr : k ∉ GoMap.keys rest := fun hh => hk (by
          simp only [GoMap.keys, List.map_cons, List.mem_cons]
          exact Or.inr hh)
        obtain ⟨h1, h2⟩ := hout k hkr
        exact ⟨by rw [h1, GoMap.get_set_ne _ _ _ _ hk0], by rw [h2, GoMap.get_set_ne _ _ _ _ hk0]⟩
      · intro hnd k v hkv
        have hnd2 : k0 ∉ GoMap.keys rest ∧ (GoMap.keys rest).Nodup := by
          simpa [GoMap.keys] using hnd
        rcases List.mem_cons.1 hkv with heq | hmem
        · obtain ⟨rfl, rfl⟩ := Prod.mk.inj heq
          obtain ⟨h1, h2⟩ := hout k hnd2.1
          exact ⟨t0, val0, ho, by rw [h1, GoMap.get_set_same], by rw [h2, GoMap.get_set_same]⟩
        · exact hin hnd2.2 k v hmem

theorem entryOutcome_error_cause (T : TypesPackage) (k : String) (v : AnyValue) (e : GoError)
    (h : entryOutcome T k v = .error e) :
    (∃ msg, T.TypeFromValue (T.ReformatValue v) = .error msg
        ∧ e = .plain ("Error getting type of field [" ++ k ++ "]: " ++ msg))
      ∨ (∃ t D msg, T.TypeFromValue (T.ReformatValue v) = .ok t
          ∧ T.DefaultTypes.get k = some D
          ∧ T.Convert D (T.ReformatValue v) = .error msg
          ∧ e = .plain ("Error default converting field [" ++ k ++ "]: " ++ msg)) := by
  unfold entryOutcome at h
  cases h1 : T.TypeFromValue (T.ReformatValue v) with
  | error err =>
    simp only [h1, Except.error.injEq] at h
    exact Or.inl ⟨err, rfl, h.symm⟩
  | ok t =>
    cases h2 : T.DefaultTypes.get k with
    | none => simp [h1, h2] at h
    | some D =>
      cases h3 : T.Convert D (T.ReformatValue v) with
      | error err =>
        simp only [h1, h2, h3, Except.error.injEq] at h
        exact Or.inr ⟨t, D, err, rfl, rfl, h3, h.symm⟩
      | ok c => simp [h1, h2, h3] at h

theorem entryOutcome_ok_iff (T : TypesPackage) (k : String) (v : AnyValue) :
    (∃ r, entryOutcome T k v = .ok r)
      ↔ (∃ t, T.TypeFromValue (T.ReformatValue v) = .ok t)
        ∧ ∀ D, T.DefaultTypes.get k = some D →
            ∃ c, T.Convert D (T.ReformatValue v) = .ok c := by
  unfold entryOutcome
  cases h1 : T.TypeFromValue (T.ReformatValue v) with
  | error err => simp
  | ok t =>
    cases h2 : T.DefaultTypes.get k with
    | none => simp
    | some D =>
      cases h3 : T.Convert D (T.ReformatValue v) with
      | error err => simp [h3]
      | ok c => simp [h3]

theorem resolveLoop_err_first (T : TypesPackage) (sqlTypeHints : GoMap SQLType) :
    ∀ (entries : List (String × AnyValue)) (object : GoMap AnyValue) (Fields : GoMap Field)
      (e : GoError),
      (resolveLoop T sqlTypeHints entries object Fields).err = some e →
      ∃ pre k v post, entries = pre ++ (k, v) :: post
        ∧ (∀ p ∈ pre, ∃ r, entryOutcome T p.1 p.2 = .ok r)
        ∧ entryOutcome T k v = .error e := by
  intro entries
  induction entries with
  | nil => intro object Fields e h; simp [resolveLoop] at h
  | cons p rest ih =>
    intro object Fields e h
    obtain ⟨k0, v0⟩ := p
    rw [resolveLoop_cons] at h
    cases ho : entryOutcome T k0 v0 with
    | error e0 =>
      simp only [ho, Option.some.injEq] at h
      exact ⟨[], k0, v0, rest, rfl, by simp, by rw [← h, ho]⟩
    | ok r =>
      simp only [ho] at h
      obtain ⟨pre, k, v, post, hsplit, hpre, hkv⟩ := ih _ _ e h
      refine ⟨(k0, v0) :: pre, k, v, post, by simp [hsplit], ?_, hkv⟩
      intro p hp
      rcases List.mem_cons.1 hp with hp | hp
      · subst hp; exact ⟨r, ho⟩
      · exact hpre p hp

theorem resolveLoop_stops (T : TypesPackage) (sqlTypeHints : GoMap SQLType) (k : String)
    (v : AnyValue) (post : List (String × AnyValue)) (e : GoError)
    (hkv : entryOutcome T k v = .error e) :
    ∀ (pre : List (String × AnyValue)) (object : GoMap AnyValue) (Fields : GoMap Field),
      (∀ p ∈ pre, ∃ r, entryOutcome T p.1 p.2 = .ok r) →
      (resolveLoop T sqlTypeHints (pre ++ (k, v) :: post) object Fields).err = some e
        ∧ (resolveLoop T sqlTypeHints (pre ++ (k, v) :: post) object Fields).fields = none := by
  intro pre
  induction pre with
  | nil =>
    intro object Fields _
    simp only [List.nil_append]
    rw [resolveLoop_cons]
    simp [hkv]
  | cons p pre ih =>
    intro object Fields hpre
    obtain ⟨k0, v0⟩ := p
    obtain ⟨r, hr⟩ := hpre (k0, v0) (List.mem_cons_self _ _)
    simp only [List.cons_append]
    rw [resolveLoop_cons]
    simp only [hr]
    exact ih _ _ (fun p hp => hpre p (List.mem_cons_of_mem _ hp))

theorem entryOutcome_ok (T : TypesPackage) (k : String) (v : AnyValue) (t : DataType)
    (val : AnyValue) (h : entryOutcome T k v = .ok (t, val)) :
    (∀ D, T.DefaultTypes.get k = some D →
        t = D ∧ T.Convert D (T.ReformatValue v) = .ok val)
      ∧ (T.DefaultTypes.get k = none →
        T.TypeFromValue (T.ReformatValue v) = .ok t ∧ val = T.ReformatValue v) := by
  unfold entryOutcome at h
  cases h1 : T.TypeFromValue (T.ReformatValue v) with
  | error err => simp [h1] at h
  | ok t1 =>
    cases h2 : T.DefaultTypes.get k with
    | none =>
      simp only [h1, h2, Except.ok.injEq, Prod.mk.injEq] at h
      simp [h.1, h.2]
    | some D =>
      cases h3 : T.Convert D (T.ReformatValue v) with
      | error err => simp [h1, h2, h3] at h
      | ok c =>
        simp only [h1, h2, h3, Except.ok.injEq, Prod.mk.injEq] at h
        obtain ⟨rfl, rfl⟩ := h
        simp [h3]

/-- C9, counterexample. In the sample package `_timestamp` has the declared default
type TIMESTAMP, and the record holds a `_timestamp` that casts to it; yet `Resolve`
neither succeeds nor fails with a conversion error naming `_timestamp`: it fails with
the conversion error of another field, `utc_time`. -/
theorem Resolve_fails_on_another_field :
    sampleTypes.DefaultTypes.get "_timestamp" = some .TIMESTAMP
      ∧ (GoMap.keys sampleRecord).Nodup
      ∧ "_timestamp" ∈ GoMap.keys sampleRecord
      ∧ (Resolve sampleTypes sampleRecord []).fields = none
      ∧ (Resolve sampleTypes sampleRecord []).err
          = some (.plain
              "Error default converting field [utc_time]: cannot cast to TIMESTAMP: yesterday")
      ∧ stringsContains
          "Error default converting field [utc_time]: cannot cast to TIMESTAMP: yesterday"
          "_timestamp" = false := by
  refine ⟨by decide, by decide, by decide, by decide, by decide, ?_⟩
  decide

/-- C9, as amended. For a record (a map: its keys are distinct) and a field `k` of it
with a declared default type `D`, `Resolve` either fails or succeeds with `Fields[k]`
of logical type `D` and `record[k]` replaced by the value cast to `D`. When it fails
it returns no Fields, and its error is that of the field at which the loop stops, the
first one visited whose type detection or cast to its default type fails: "Error
getting type of field [j]: " or "Error default converting field [j]: " with the name
`j` of that field and the text of the failure, which need not be `k`. When the loop
stops at `k` because its value cannot be cast to `D`, the error is the conversion
error naming `k`; and `Resolve` fails whenever that cast is impossible. It never
succeeds with a type for `k` other than `D`. -/
theorem Resolve_default_type (T : TypesPackage) (object : GoMap AnyValue)
    (sqlTypeHints : GoMap SQLType) (k : String) (v : AnyValue) (D : DataType)
    (hmap : (GoMap.keys object).Nodup) (hk : (k, v) ∈ object)
    (hD : T.DefaultTypes.get k = some D) :
    ((Resolve T object sqlTypeHints).err = none →
        ∃ F f c, (Resolve T object sqlTypeHints).fields = some F
          ∧ F.get k = some f ∧ f.dataType = D
          ∧ T.Convert D (T.ReformatValue v) = .ok c
          ∧ (Resolve T object sqlTypeHints).object.get k = some c)
      ∧ (∀ e, (Resolve T object sqlTypeHints).err = some e →
          (Resolve T object sqlTypeHints).fields = none
            ∧ ∃ pre j w post, object = pre ++ (j, w) :: post
                ∧ (∀ p ∈ pre, (∃ t, T.TypeFromValue (T.ReformatValue p.2) = .ok t)
                    ∧ ∀ D2, T.DefaultTypes.get p.1 = some D2 →
                        ∃ c, T.Convert D2 (T.ReformatValue p.2) = .ok c)
                ∧ ((∃ msg, T.TypeFromValue (T.ReformatValue w) = .error msg
                      ∧ e = .plain ("Error getting type of field [" ++ j ++ "]: " ++ msg))
                  ∨ (∃ t D2 msg, T.TypeFromValue (T.ReformatValue w) = .ok t
                      ∧ T.DefaultTypes.get j = some D2
                      ∧ T.Convert D2 (T.ReformatValue w) = .error msg
                      ∧ e = .plain ("Error default converting field [" ++ j ++ "]: " ++ msg))))
      ∧ (∀ pre post t msg, object = pre ++ (k, v) :: post →
          (∀ p ∈ pre, (∃ t2, T.TypeFromValue (T.ReformatValue p.2) = .ok t2)
              ∧ ∀ D2, T.DefaultTypes.get p.1 = some D2 →
                  ∃ c, T.Convert D2 (T.ReformatValue p.2) = .ok c) →
          T.TypeFromValue (T.ReformatValue v) = .ok t →
          T.Convert D (T.ReformatValue v) = .error msg →
          (Resolve T object sqlTypeHints).err
              = some (.plain ("Error default converting field [" ++ k ++ "]: " ++ msg))
            ∧ (Resolve T object sqlTypeHints).fields = none)
      ∧ (∀ msg, T.Convert D (T.ReformatValue v) = .error msg →
          (Resolve T object sqlTypeHints).err ≠ none)
      ∧ (∀ F f, (Resolve T object sqlTypeHints).fields = some F → F.get k = some f →
          f.dataType = D) := by
  have hsucc : (Resolve T object sqlTypeHints).err = none →
      ∃ F f c, (Resolve T object sqlTypeHints).fields = some F
        ∧ F.get k = some f ∧ f.dataType = D
        ∧ T.Convert D (T.ReformatValue v) = .ok c
        ∧ (Resolve T object sqlTypeHints).object.get k = some c := by
    intro h
    obtain ⟨F, hF, _, hin⟩ := resolveLoop_ok T sqlTypeHints object object [] h
    obtain ⟨t, val, ho, hf, hobj⟩ := hin hmap k v hk
    obtain ⟨htD, hconv⟩ := (entryOutcome_ok T k v t val ho).1 D hD
    exact ⟨F, _, val, hF, hf, htD, hconv, hobj⟩
  refine ⟨hsucc, ?_, ?_, ?_, ?_⟩
  · intro e he
    refine ⟨?_, ?_⟩
    · by_contra hne
      have := (resolveLoop_fields_iff T sqlTypeHints object object []).2 hne
      simp [Resolve, this] at he
    · obtain ⟨pre, j, w, post, hsplit, hpre, hout⟩ :=
        resolveLoop_err_first T sqlTypeHints object object [] e he
      exact ⟨pre, j, w, post, hsplit,
        fun p hp => (entryOutcome_ok_iff T p.1 p.2).1 (hpre p hp),
        entryOutcome_error_cause T j w e hout⟩
  · intro pre post t msg hsplit hpre ht hmsg
    have hout : entryOutcome T k v
        = .error (.plain ("Error default converting field [" ++ k ++ "]: " ++ msg)) := by
      simp [entryOutcome, ht, hD, hmsg]
    have := resolveLoop_stops T sqlTypeHints k v post _ hout pre object []
      (fun p hp => (entryOutcome_ok_iff T p.1 p.2).2 (hpre p hp))
    simp only [Resolve]
    rw [hsplit]
    rw [hsplit] at this
    exact this
  · intro msg hmsg hnone
    obtain ⟨_, _, c, _, _, _, hc, _⟩ := hsucc hnone
    rw [hmsg] at hc
    cases hc
  · intro F f hF hf
    have hnone : (Resolve T object sqlTypeHints).err = none :=
      (resolveLoop_fields_iff T sqlTypeHints object object []).2 (by
        simp only [Resolve] at hF
        simp [hF])
    obtain ⟨F2, f2, _, hF2, hf2, hd, _, _⟩ := hsucc hnone
    rw [hF] at hF2
    cases hF2
    rw [hf] at hf2
    cases hf2
    exact hd

/-- Witness of C9: the sample package resolves the record `goodRecord`, and gives its
`_timestamp` the declared type TIMESTAMP. -/
theorem Resolve_default_type_witness :
    ∃ F f c, (Resolve sampleTypes goodRecord []).fields = some F
      ∧ F.get "_timestamp" = some f ∧ f.dataType = .TIMESTAMP
      ∧ sampleTypes.Convert .TIMESTAMP
          (sampleTypes.ReformatValue (.str "2022-08-18T14:17:22Z")) = .ok c
      ∧ (Resolve sampleTypes goodRecord []).object.get "_timestamp" = some c :=
  (Resolve_default_type sampleTypes goodRecord [] "_timestamp" (.str "2022-08-18T14:17:22Z")
      .TIMESTAMP (by decide) (List.mem_cons_self _ _) (by decide)).1 (by decide)

/-- C10. For a record (a map: its keys are distinct) and a hint map, after a
successful `Resolve` every field `k` of the record has a Field whose logical type is
the resolved one (the declared default type of `k` if there is one, the type of the
canonical value otherwise) and whose SQL-type override is exactly the hint
`sqlTypeHints[k]` when `k` has a hint, and is absent when it has none. -/
theorem Resolve_sql_type_hints (T : TypesPackage) (object : GoMap AnyValue)
    (sqlTypeHints : GoMap SQLType) (hmap : (GoMap.keys object).Nodup)
    (hok : (Resolve T object sqlTypeHints).err = none) :
    ∃ F, (Resolve T object sqlTypeHints).fields = some F
      ∧ ∀ k v, (k, v) ∈ object →
          ∃ t, (∀ D, T.DefaultTypes.get k = some D → t = D)
            ∧ (T.DefaultTypes.get k = none → T.TypeFromValue (T.ReformatValue v) = .ok t)
            ∧ (∀ sqlType, sqlTypeHints.get k = some sqlType →
                F.get k = some { dataType := t, sqlTypeOverride := some sqlType })
            ∧ (sqlTypeHints.get k = none →
                F.get k = some { dataType := t, sqlTypeOverride := none }) := by
  obtain ⟨F, hF, _, hin⟩ := resolveLoop_ok T sqlTypeHints object object [] hok
  refine ⟨F, hF, ?_⟩
  intro k v hkv
  obtain ⟨t, val, ho, hf, _⟩ := hin hmap k v hkv
  obtain ⟨h1, h2⟩ := entryOutcome_ok T k v t val ho
  refine ⟨t, fun D hD => (h1 D hD).1, fun hn => (h2 hn).1, ?_, ?_⟩
  · intro sqlType hs
    rw [hf, hs]
  · intro hs
    rw [hf, hs]

/-- Witness of C10: with the hint `bigint` for `id`, the sample package resolves
`goodRecord` to Fields in which only `id` carries an override. -/
theorem Resolve_sql_type_hints_witness :
    ∃ F, (Resolve sampleTypes goodRecord [("id", "bigint")]).fields = some F
      ∧ ∀ k v, (k, v) ∈ goodRecord →
          ∃ t, (∀ D, sampleTypes.DefaultTypes.get k = some D → t = D)
            ∧ (sampleTypes.DefaultTypes.get k = none →
                sampleTypes.TypeFromValue (sampleTypes.ReformatValue v) = .ok t)
            ∧ (∀ sqlType, GoMap.get [("id", "bigint")] k = some sqlType →
                F.get k = some { dataType := t, sqlTypeOverride := some sqlType })
            ∧ (GoMap.get [("id", "bigint")] k = none →
                F.get k = some { dataType := t, sqlTypeOverride := none }) :=
  Resolve_sql_type_hints sampleTypes goodRecord [("id", "bigint")] (by decide) (by decide)

/-! ### The type resolver: consistency of Fields and record -/

theorem GoMap.keys_set_of_mem {V : Type} (m : GoMap V) (k : String) (v : V)
    (h : k ∈ GoMap.keys m) : GoMap.keys (m.set k v) = GoMap.keys m := by
  induction m with
  | nil => simp [GoMap.keys] at h
  | cons p m ih =>
    obtain ⟨k', v'⟩ := p
    by_cases hk : k' = k
    · subst hk; simp [GoMap.set, GoMap.keys]
    · have h2 : k ∈ GoMap.keys m := by
        simp only [GoMap.keys, List.map_cons, List.mem_cons] at h
        rcases h with h | h
        · exact absurd h.symm hk
        · exact h
      have := ih h2
      simp only [GoMap.keys] at this
      simp [GoMap.set, GoMap.keys, hk, this]

theorem GoMap.keys_set_of_not_mem {V : Type} (m : GoMap V) (k : String) (v : V)
    (h : k ∉ GoMap.keys m) : GoMap.keys (m.set k v) = GoMap.keys m ++ [k] := by
  induction m with
  | nil => simp [GoMap.set, GoMap.keys]
  | cons p m ih =>
    obtain ⟨k', v'⟩ := p
    have hk : k' ≠ k := fun hh => h (by simp [GoMap.keys, hh])
    have h2 : k ∉ GoMap.keys m := fun hh => h (by
      simp only [GoMap.keys, List.map_cons, List.mem_cons]
      exact Or.inr hh)
    have := ih h2
    simp only [GoMap.keys] at this
    simp [GoMap.set, GoMap.keys, hk, this]

theorem resolveLoop_keys (T : TypesPackage) (sqlTypeHints : GoMap SQLType) :
    ∀ (entries : List (String × AnyValue)) (object : GoMap AnyValue) (Fields : GoMap Field)
      (F : GoMap Field),
      (resolveLoop T sqlTypeHints entries object Fields).fields = some F →
      (GoMap.keys entries).Nodup →
      (∀ k ∈ GoMap.keys entries, k ∉ GoMap.keys Fields) →
      (∀ k ∈ GoMap.keys entries, k ∈ GoMap.keys object) →
      GoMap.keys F = GoMap.keys Fields ++ GoMap.keys entries
        ∧ GoMap.keys (resolveLoop T sqlTypeHints entries object Fields).object
            = GoMap.keys object := by
  intro entries
  induction entries with
  | nil =>
    intro object Fields F h _ _ _
    simp only [resolveLoop, Option.some.injEq] at h
    subst h
    simp [resolveLoop, GoMap.keys]
  | cons p rest ih =>
    intro object Fields F h hnd hfresh hin
    obtain ⟨k0, v0⟩ := p
    rw [resolveLoop_cons] at h ⊢
    cases ho : entryOutcome T k0 v0 with
    | error e => simp [ho] at h
    | ok r =>
      obtain ⟨t0, val0⟩ := r
      simp only [ho] at h ⊢
      have hnd2 : k0 ∉ GoMap.keys rest ∧ (GoMap.keys rest).Nodup := by
        simpa [GoMap.keys] using hnd
      have hk0F : k0 ∉ GoMap.keys Fields := hfresh k0 (by simp [GoMap.keys])
      have hk0o : k0 ∈ GoMap.keys object := hin k0 (by simp [GoMap.keys])
      have hrest : ∀ k ∈ GoMap.keys rest, k ∈ GoMap.keys ((k0, v0) :: rest) := by
        intro k hk
        simp only [GoMap.keys, List.map_cons, List.mem_cons]
        exact Or.inr hk
      obtain ⟨h1, h2⟩ := ih (object.set k0 val0)
        (Fields.set k0 { dataType := t0, sqlTypeOverride := sqlTypeHints.get k0 }) F h hnd2.2
        (by
          intro k hk
          rw [GoMap.keys_set_of_not_mem _ _ _ hk0F]
          intro hmem
          rcases List.mem_append.1 hmem with hm | hm
          · exact hfresh k (hrest k hk) hm
          · have hkk : k = k0 := by simpa using hm
            exact hnd2.1 (hkk ▸ hk))
        (by
          intro k hk
          rw [GoMap.keys_set_of_mem _ _ _ hk0o]
          exact hin k (hrest k hk))
      refine ⟨?_, ?_⟩
      · rw [h1, GoMap.keys_set_of_not_mem _ _ _ hk0F]
        simp [GoMap.keys]
      · rw [h2, GoMap.keys_set_of_mem _ _ _ hk0o]

/-- C11. After a successful `Resolve` of a record (a map: its keys are distinct), the
Fields have exactly the keys of the record, whatever the hints, and the record has
kept its keys; for every key `k` without a declared default type, `record[k]` holds
`ReformatValue` of the original value and the logical type of `Fields[k]` is
`TypeFromValue(record[k])`. -/
theorem Resolve_fields_consistent (T : TypesPackage) (object : GoMap AnyValue)
    (sqlTypeHints : GoMap SQLType) (hmap : (GoMap.keys object).Nodup)
    (hok : (Resolve T object sqlTypeHints).err = none) :
    ∃ F, (Resolve T object sqlTypeHints).fields = some F
      ∧ GoMap.keys F = GoMap.keys object
      ∧ GoMap.keys (Resolve T object sqlTypeHints).object = GoMap.keys object
      ∧ ∀ k v, (k, v) ∈ object → T.DefaultTypes.get k = none →
          (Resolve T object sqlTypeHints).object.get k = some (T.ReformatValue v)
            ∧ ∃ f t, F.get k = some f ∧ f.dataType = t
                ∧ T.TypeFromValue (T.ReformatValue v) = .ok t := by
  obtain ⟨F, hF, _, hin⟩ := resolveLoop_ok T sqlTypeHints object object [] hok
  obtain ⟨hk1, hk2⟩ := resolveLoop_keys T sqlTypeHints object object [] F hF hmap
    (by intro k _; simp [GoMap.keys]) (by intro k hk; exact hk)
  refine ⟨F, hF, by simpa [GoMap.keys] using hk1, hk2, ?_⟩
  intro k v hkv hnone
  obtain ⟨t, val, ho, hf, hobj⟩ := hin hmap k v hkv
  obtain ⟨htype, hval⟩ := (entryOutcome_ok T k v t val ho).2 hnone
  exact ⟨by simp only [Resolve]; rw [hobj, hval], _, t, hf, rfl, htype⟩

/-- Witness of C11: the sample package resolves `goodRecord` with a hint for the
absent name `price`; the Fields have the three keys of the record. -/
theorem Resolve_fields_consistent_witness :
    ∃ F, (Resolve sampleTypes goodRecord [("price", "numeric")]).fields = some F
      ∧ GoMap.keys F = GoMap.keys goodRecord
      ∧ GoMap.keys (Resolve sampleTypes goodRecord [("price", "numeric")]).object
          = GoMap.keys goodRecord
      ∧ ∀ k v, (k, v) ∈ goodRecord → sampleTypes.DefaultTypes.get k = none →
          (Resolve sampleTypes goodRecord [("price", "numeric")]).object.get k
              = some (sampleTypes.ReformatValue v)
            ∧ ∃ f t, F.get k = some f ∧ f.dataType = t
                ∧ sampleTypes.TypeFromValue (sampleTypes.ReformatValue v) = .ok t :=
  Resolve_fields_consistent sampleTypes goodRecord [("price", "numeric")] (by decide) (by decide)

/-- C12. `DummyTypeResolver.Resolve` returns, for every record (the empty one
included) and every hint map, no error and Fields with the single entry `dummy`, of
logical type UNKNOWN and without SQL-type override; the record is left as it was. -/
theorem DummyTypeResolver_Resolve_placeholder (object : GoMap AnyValue)
    (sqlTypeHints : GoMap SQLType) :
    (DummyTypeResolver.Resolve object sqlTypeHints).err = none
      ∧ (DummyTypeResolver.Resolve object sqlTypeHints).fields
          = some [("dummy", { dataType := .UNKNOWN, sqlTypeOverride := none })]
      ∧ (DummyTypeResolver.Resolve object sqlTypeHints).object = object
      ∧ (DummyTypeResolver.Resolve [] sqlTypeHints).fields
          = some [("dummy", { dataType := .UNKNOWN, sqlTypeOverride := none })] := by
  simp [DummyTypeResolver.Resolve, NewField]

/-! ### Object keys, metadata and the write-permission check -/

theorem Upload_callsMade (tc : FileConstants) (gcs : GoogleCloudStorage) (fileName : String)
    (fileReader : Bytes) :
    ∃ n, gcs.callsMade (gcs.Upload tc fileName fileReader).2
        = (uploadCalls tc gcs fileName fileReader).take n
      ∧ ((gcs.Upload tc fileName fileReader).1 = none → 6 ≤ n) := by
  simp only [GoogleCloudStorage.Upload, GoogleCloudStorage.callsMade, uploadCalls]
  split
  · exact ⟨0, by simp⟩
  · split
    · exact ⟨1, by simp [GoogleCloudStorage.logged]⟩
    · split
      · exact ⟨2, by simp [GoogleCloudStorage.logged]⟩
      · split
        · exact ⟨3, by simp [GoogleCloudStorage.logged]⟩
        · split
          · exact ⟨4, by simp [GoogleCloudStorage.logged]⟩
          · exact ⟨4, by simp [GoogleCloudStorage.logged]⟩
          · split
            · exact ⟨5, by simp [GoogleCloudStorage.logged]⟩
            · exact ⟨5, by simp [GoogleCloudStorage.logged]⟩
            · split
              · exact ⟨6, by simp [GoogleCloudStorage.logged]⟩
              · exact ⟨6, by simp [GoogleCloudStorage.logged]⟩
              · exact ⟨6, by simp [GoogleCloudStorage.logged]⟩

/-- C14. With distinct format constants, a successful `Upload` updates the object,
once, with metadata whose content encoding is `gzip` exactly when the configured
compression is GZIP (and unset otherwise), and whose content type is `text/csv` for
the format CSV, `application/x-ndjson` for NDJSON and NDJSONFLAT, and unset for every
other format. -/
theorem Upload_sets_metadata (tc : FileConstants) (gcs : GoogleCloudStorage)
    (fileName : String) (fileReader : Bytes)
    (hcsv1 : tc.FileFormatCSV ≠ tc.FileFormatNDJSON)
    (hcsv2 : tc.FileFormatCSV ≠ tc.FileFormatNDJSONFLAT)
    (hok : (gcs.Upload tc fileName fileReader).1 = none) :
    ∃ metadata,
      ClientCall.Update gcs.config.Bucket (gcs.Path fileName) metadata
          ∈ gcs.callsMade (gcs.Upload tc fileName fileReader).2
      ∧ (∀ b k m, ClientCall.Update b k m ∈ gcs.callsMade (gcs.Upload tc fileName fileReader).2 →
          m = metadata)
      ∧ (gcs.callsMade (gcs.Upload tc fileName fileReader).2).count
          (ClientCall.Update gcs.config.Bucket (gcs.Path fileName) metadata) = 1
      ∧ (metadata.ContentEncoding = some "gzip"
          ↔ gcs.config.Compression = tc.FileCompressionGZIP)
      ∧ (gcs.config.Compression ≠ tc.FileCompressionGZIP → metadata.ContentEncoding = none)
      ∧ (gcs.config.Format = tc.FileFormatCSV → metadata.ContentType = some "text/csv")
      ∧ (gcs.config.Format = tc.FileFormatNDJSON ∨ gcs.config.Format = tc.FileFormatNDJSONFLAT →
          metadata.ContentType = some "application/x-ndjson")
      ∧ (gcs.config.Format ≠ tc.FileFormatCSV → gcs.config.Format ≠ tc.FileFormatNDJSON →
          gcs.config.Format ≠ tc.FileFormatNDJSONFLAT → metadata.ContentType = none) := by
  obtain ⟨n, hn, hn2⟩ := Upload_callsMade tc gcs fileName fileReader
  have hall : gcs.callsMade (gcs.Upload tc fileName fileReader).2
      = uploadCalls tc gcs fileName fileReader := by
    rw [hn, List.take_of_length_le (by simpa [uploadCalls] using hn2 hok)]
  refine ⟨uploadMetadata tc gcs.config, ?_, ?_, ?_, ?_, ?_, ?_, ?_, ?_⟩
  · rw [hall]; simp [uploadCalls]
  · intro b k m hm
    rw [hall] at hm
    simp only [uploadCalls, List.mem_cons, List.mem_singleton, List.not_mem_nil, or_false] at hm
    rcases hm with h | h | h | h | h | h <;> simp_all
  · rw [hall]; simp [uploadCalls, List.count_cons]
  · by_cases h : gcs.config.Compression = tc.FileCompressionGZIP <;> simp [uploadMetadata, h]
  · intro h; simp [uploadMetadata, h]
  · intro h; simp [uploadMetadata, h]
  · intro h
    rcases h with h | h
    · have hne : ¬ tc.FileFormatNDJSON = tc.FileFormatCSV := fun hh => hcsv1 hh.symm
      simp [uploadMetadata, h, hne]
    · have hne : ¬ tc.FileFormatNDJSONFLAT = tc.FileFormatCSV := fun hh => hcsv2 hh.symm
      simp [uploadMetadata, h, hne]
  · intro h1 h2 h3; simp [uploadMetadata, h1, h2, h3]

/-- Witness of C14: a successful upload by the adapter configured for gzip-compressed
CSV sets the content encoding `gzip` and the content type `text/csv`. -/
theorem Upload_sets_metadata_witness :
    ∃ metadata,
      ClientCall.Update (gzipCsvAdapter quietClient).config.Bucket
            ((gzipCsvAdapter quietClient).Path "f.csv.gz") metadata
          ∈ (gzipCsvAdapter quietClient).callsMade
              ((gzipCsvAdapter quietClient).Upload sampleConstants "f.csv.gz" [31, 139]).2
      ∧ metadata.ContentEncoding = some "gzip"
      ∧ metadata.ContentType = some "text/csv" :=
  match Upload_sets_metadata sampleConstants (gzipCsvAdapter quietClient) "f.csv.gz" [31, 139]
      (by decide) (by decide) (by decide) with
  | ⟨metadata, h1, _, _, h4, _, h6, _, _⟩ => ⟨metadata, h1, h4.2 (by decide), h6 (by decide)⟩

/-- C15. `ValidateWritePermission` returns nil exactly when the upload of its empty
file `test_<now>` returns nil. An error of the upload is returned as it is, the
adapter being left as the upload left it, without any delete call. After a
successful upload the result is nil whatever `DeleteObject`, called with the same
file name, returns. -/
theorem ValidateWritePermission_checks_upload_only (tc : FileConstants)
    (gcs : GoogleCloudStorage) (now : String) :
    ((gcs.ValidateWritePermission tc now).1 = none
        ↔ (gcs.UploadBytes tc ("test_" ++ now) []).1 = none)
      ∧ (∀ e, (gcs.UploadBytes tc ("test_" ++ now) []).1 = some e →
          gcs.ValidateWritePermission tc now = (some e, (gcs.UploadBytes tc ("test_" ++ now) []).2)
            ∧ ∀ b k, ClientCall.Delete b k
                ∉ gcs.callsMade (gcs.ValidateWritePermission tc now).2)
      ∧ ((gcs.UploadBytes tc ("test_" ++ now) []).1 = none →
          gcs.ValidateWritePermission tc now
            = (none, ((gcs.UploadBytes tc ("test_" ++ now) []).2.DeleteObject ("test_" ++ now)).2)) := by
  have hupload : ∀ b k, ClientCall.Delete b k
      ∉ gcs.callsMade (gcs.UploadBytes tc ("test_" ++ now) []).2 := by
    intro b k hmem
    obtain ⟨n, hn, _⟩ := Upload_callsMade tc gcs ("test_" ++ now) []
    simp only [GoogleCloudStorage.UploadBytes] at hmem
    rw [hn] at hmem
    have := List.mem_of_mem_take hmem
    simp [uploadCalls] at this
  refine ⟨?_, ?_, ?_⟩
  · simp only [GoogleCloudStorage.ValidateWritePermission]
    split
    · rename_i err g heq
      simp [heq]
    · rename_i g heq
      simp [heq]
  · intro e he
    have hv : gcs.ValidateWritePermission tc now
        = (some e, (gcs.UploadBytes tc ("test_" ++ now) []).2) := by
      simp only [GoogleCloudStorage.ValidateWritePermission]
      split
      · rename_i err g heq
        simp [heq] at he
        simp [heq, he]
      · rename_i g heq
        simp [heq] at he
    refine ⟨hv, ?_⟩
    rw [hv]
    exact hupload
  · intro he
    simp only [GoogleCloudStorage.ValidateWritePermission]
    split
    · rename_i err g heq
      simp [heq] at he
    · rename_i g heq
      simp [heq]

/-- Witness of C15: on a client whose delete reports an error, the check still
returns nil after the successful upload of `test_t0`. -/
theorem ValidateWritePermission_checks_upload_only_witness :
    (sampleAdapter deleteFailsClient).ValidateWritePermission sampleConstants "t0"
      = (none,
         (((sampleAdapter deleteFailsClient).UploadBytes sampleConstants ("test_" ++ "t0") []).2.DeleteObject
            ("test_" ++ "t0")).2)
    ∧ ((((sampleAdapter deleteFailsClient).UploadBytes sampleConstants ("test_" ++ "t0") []).2.DeleteObject
            ("test_" ++ "t0")).1
        = some (.saveOnStage (.plain "forbidden") "failed to delete from google cloud"
            { Bucket := "bucket1", Statement := "file: dir/test_t0" })) :=
  ⟨(ValidateWritePermission_checks_upload_only sampleConstants (sampleAdapter deleteFailsClient)
      "t0").2.2 (by decide), by decide⟩

/-! ### The configuration source -/

/-- C16. The identity of a destination is its workspace id, an underscore and the id
of its config, so that two configs with the same workspace id and the same config id
have the same identity, whatever their batch size, backend type, credentials and
stream defaults. -/
theorem DestinationConfig_Id_deterministic (a b : DestinationConfig) :
    a.Id = a.WorkspaceId ++ "_" ++ a.Config.Id
      ∧ (a.WorkspaceId = b.WorkspaceId → a.Config.Id = b.Config.Id → a.Id = b.Id) := by
  refine ⟨rfl, ?_⟩
  intro h1 h2
  simp [DestinationConfig.Id, h1, h2]

/-- Witness of C16: two configs of workspace `ws1` with id `pg`, of different batch
size and backend type, have the identity `ws1_pg`. -/
theorem DestinationConfig_Id_deterministic_witness :
    (sampleDestination "pg" 100 "postgres").Id = (sampleDestination "pg" 5 "bigquery").Id :=
  (DestinationConfig_Id_deterministic (sampleDestination "pg" 100 "postgres")
    (sampleDestination "pg" 5 "bigquery")).2 rfl rfl

theorem append_separator_inj (c : Char) :
    ∀ (l1 l2 r1 r2 : List Char), c ∉ l1 → c ∉ l2 → l1 ++ c :: r1 = l2 ++ c :: r2 →
      l1 = l2 ∧ r1 = r2 := by
  intro l1
  induction l1 with
  | nil =>
    intro l2 r1 r2 _ h2 h
    cases l2 with
    | nil => simpa using h
    | cons x l2 =>
      simp only [List.nil_append, List.cons_append, List.cons.injEq] at h
      exact absurd (by simp [h.1]) h2
  | cons a l1 ih =>
    intro l2 r1 r2 h1 h2 h
    cases l2 with
    | nil =>
      simp only [List.nil_append, List.cons_append, List.cons.injEq] at h
      exact absurd (by simp [h.1]) h1
    | cons x l2 =>
      simp only [List.cons_append, List.cons.injEq] at h
      obtain ⟨h3, h4⟩ := ih l2 r1 r2 (fun hh => h1 (List.mem_cons_of_mem _ hh))
        (fun hh => h2 (List.mem_cons_of_mem _ hh)) h.2
      exact ⟨by rw [h.1, h3], h4⟩

/-- C20. On configs whose workspace id contains no underscore the identity is
injective: equal identities imply equal workspace ids and equal config ids. -/
theorem DestinationConfig_Id_injective (a b : DestinationConfig)
    (ha : '_' ∉ a.WorkspaceId.data) (hb : '_' ∉ b.WorkspaceId.data)
    (h : a.Id = b.Id) :
    a.WorkspaceId = b.WorkspaceId ∧ a.Config.Id = b.Config.Id := by
  have hdata : a.WorkspaceId.data ++ '_' :: a.Config.Id.data
      = b.WorkspaceId.data ++ '_' :: b.Config.Id.data := by
    have := congrArg String.data h
    simpa [DestinationConfig.Id, String.data_append] using this
  obtain ⟨h1, h2⟩ := append_separator_inj '_' _ _ _ _ ha hb hdata
  exact ⟨String.ext h1, String.ext h2⟩

/-- Witness of C20: the identity `ws1_pg` of a config of workspace `ws1` determines
its workspace id and its config id. -/
theorem DestinationConfig_Id_injective_witness :
    (sampleDestination "pg" 100 "postgres").WorkspaceId
        = (sampleDestination "pg" 5 "bigquery").WorkspaceId
      ∧ (sampleDestination "pg" 100 "postgres").Config.Id
        = (sampleDestination "pg" 5 "bigquery").Config.Id :=
  DestinationConfig_Id_injective (sampleDestination "pg" 100 "postgres")
    (sampleDestination "pg" 5 "bigquery") (by decide) (by decide) (by decide)

theorem GoMap.set_of_not_mem {V : Type} (m : GoMap V) (k : String) (v : V)
    (h : k ∉ GoMap.keys m) : m.set k v = m ++ [(k, v)] := by
  induction m with
  | nil => simp [GoMap.set]
  | cons p m ih =>
    obtain ⟨k', v'⟩ := p
    have hk : k' ≠ k := fun hh => h (by simp [GoMap.keys, hh])
    have h2 : k ∉ GoMap.keys m := fun hh => h (by
      simp only [GoMap.keys, List.map_cons, List.mem_cons]
      exact Or.inr hh)
    simp [GoMap.set, hk, ih h2]

theorem GoMap.get_of_not_mem {V : Type} (m : GoMap V) (k : String)
    (h : k ∉ GoMap.keys m) : m.get k = none := by
  induction m with
  | nil => simp [GoMap.get, List.lookup]
  | cons p m ih =>
    obtain ⟨k', v'⟩ := p
    have hk : (k == k') = false := by
      simpa using fun hh : k = k' => h (by simp [GoMap.keys, hh])
    have h2 : k ∉ GoMap.keys m := fun hh => h (by
      simp only [GoMap.keys, List.map_cons, List.mem_cons]
      exact Or.inr hh)
    have := ih h2
    simp only [GoMap.get] at this
    simp [GoMap.get, List.lookup, hk, this]

theorem decodedEntries_keys (Decode : AnyValue → Except String DestinationConfig)
    (entries : List (String × AnyValue)) (k : String)
    (h : k ∈ GoMap.keys (entries.filterMap (decodedEntry Decode))) : k ∈ GoMap.keys entries := by
  induction entries with
  | nil => simp [GoMap.keys] at h
  | cons p rest ih =>
    obtain ⟨k0, d0⟩ := p
    simp only [GoMap.keys, List.map_cons, List.mem_cons]
    cases hd : Decode d0 with
    | error e =>
      have h2 : k ∈ GoMap.keys (rest.filterMap (decodedEntry Decode)) := by
        simpa [List.filterMap_cons, decodedEntry, hd] using h
      exact Or.inr (ih h2)
    | ok cfg =>
      have h2 : k = k0 ∨ k ∈ GoMap.keys (rest.filterMap (decodedEntry Decode)) := by
        simpa [List.filterMap_cons, decodedEntry, hd, GoMap.keys] using h
      rcases h2 with h2 | h2
      · exact Or.inl h2
      · exact Or.inr (ih h2)

theorem initLoop_eq (Decode : AnyValue → Except String DestinationConfig) :
    ∀ (entries : List (String × AnyValue)) (results : GoMap DestinationConfig),
      (GoMap.keys entries).Nodup → (∀ k ∈ GoMap.keys entries, k ∉ GoMap.keys results) →
      initLoop Decode entries results = results ++ entries.filterMap (decodedEntry Decode) := by
  intro entries
  induction entries with
  | nil => intro results _ _; simp [initLoop]
  | cons p rest ih =>
    intro results hnd hfresh
    obtain ⟨k0, d0⟩ := p
    have hnd2 : k0 ∉ GoMap.keys rest ∧ (GoMap.keys rest).Nodup := by
      simpa [GoMap.keys] using hnd
    have hk0 : k0 ∉ GoMap.keys results := hfresh k0 (by simp [GoMap.keys])
    have hrest : ∀ k ∈ GoMap.keys rest, k ∉ GoMap.keys results := by
      intro k hk
      exact hfresh k (by
        simp only [GoMap.keys, List.map_cons, List.mem_cons]
        exact Or.inr hk)
    cases hd : Decode d0 with
    | error e =>
      simp only [initLoop, hd, List.filterMap_cons, decodedEntry]
      exact ih results hnd2.2 hrest
    | ok cfg =>
      simp only [initLoop, hd, List.filterMap_cons, decodedEntry]
      rw [GoMap.set_of_not_mem _ _ _ hk0, ih _ hnd2.2]
      · simp
      · intro k hk hmem
        have hmem2 : k ∈ GoMap.keys results ∨ k = k0 := by
          simpa [GoMap.keys] using hmem
        rcases hmem2 with hm | hm
        · exact hrest k hk hm
        · exact hnd2.1 (hm ▸ hk)

theorem decodedEntries_get (Decode : AnyValue → Except String DestinationConfig) :
    ∀ (entries : List (String × AnyValue)) (id : String), (GoMap.keys entries).Nodup →
      GoMap.get (entries.filterMap (decodedEntry Decode)) id
        = match GoMap.get entries id with
          | none => none
          | some destination => (decodedEntry Decode (id, destination)).map Prod.snd := by
  intro entries
  induction entries with
  | nil => intro id _; simp [GoMap.get, List.lookup]
  | cons p rest ih =>
    intro id hnd
    obtain ⟨k0, d0⟩ := p
    have hnd2 : k0 ∉ GoMap.keys rest ∧ (GoMap.keys rest).Nodup := by
      simpa [GoMap.keys] using hnd
    by_cases hid : id = k0
    · subst hid
      have hnone : GoMap.get (rest.filterMap (decodedEntry Decode)) id = none :=
        GoMap.get_of_not_mem _ _ (fun hh => hnd2.1 (decodedEntries_keys Decode rest id hh))
      cases hd : Decode d0 with
      | error e =>
        simp only [GoMap.get] at hnone
        simp [GoMap.get, List.lookup, List.filterMap_cons, decodedEntry, hd, hnone]
      | ok cfg =>
        simp [GoMap.get, List.lookup, List.filterMap_cons, decodedEntry, hd]
    · have hbeq : (id == k0) = false := by simpa using hid
      have := ih id hnd2.2
      simp only [GoMap.get] at this
      cases hd : Decode d0 with
      | error e =>
        simp [GoMap.get, List.lookup, List.filterMap_cons, decodedEntry, hd, hbeq, this]
      | ok cfg =>
        simp [GoMap.get, List.lookup, List.filterMap_cons, decodedEntry, hd, hbeq, this]

theorem fillLoop_eq :
    ∀ (destinations : List (String × DestinationConfig)) (filled : List (Option DestinationConfig)),
      fillLoop destinations filled.length (filled ++ List.replicate destinations.length none)
        = filled ++ destinations.map (fun p => some p.2) := by
  intro destinations
  induction destinations with
  | nil => intro filled; simp [fillLoop]
  | cons p rest ih =>
    intro filled
    obtain ⟨k, d⟩ := p
    have hset : (filled ++ List.replicate (rest.length + 1) none).set filled.length (some d)
        = (filled ++ [some d]) ++ List.replicate rest.length none := by
      simp [List.set_append, List.replicate_succ]
    have := ih (filled ++ [some d])
    simp only [List.length_append, List.length_singleton] at this
    simp only [fillLoop, List.length_cons, hset, this]
    simp

theorem GoMap.get_eq_some_iff {V : Type} (m : GoMap V) (k : String) (v : V)
    (hnd : (GoMap.keys m).Nodup) : m.get k = some v ↔ (k, v) ∈ m := by
  induction m with
  | nil => simp [GoMap.get, List.lookup]
  | cons p m ih =>
    obtain ⟨k', v'⟩ := p
    have hnd2 : k' ∉ GoMap.keys m ∧ (GoMap.keys m).Nodup := by
      simpa [GoMap.keys] using hnd
    have ih2 := ih hnd2.2
    simp only [GoMap.get] at ih2
    by_cases hk : k = k'
    · subst hk
      have hnot : (k, v) ∉ m := fun hh => hnd2.1 (by
        simp only [GoMap.keys, List.mem_map]
        exact ⟨(k, v), hh, rfl⟩)
      simp [GoMap.get, List.lookup, hnot]
      exact ⟨fun h => h.symm, fun h => h.symm⟩
    · have hbeq : (k == k') = false := by simpa using hk
      simp [GoMap.get, List.lookup, hbeq, ih2, hk]

theorem decodedEntries_nodup (Decode : AnyValue → Except String DestinationConfig)
    (entries : List (String × AnyValue)) (hnd : (GoMap.keys entries).Nodup) :
    (GoMap.keys (entries.filterMap (decodedEntry Decode))).Nodup := by
  induction entries with
  | nil => simp [GoMap.keys]
  | cons p rest ih =>
    obtain ⟨k0, d0⟩ := p
    have hnd2 : k0 ∉ GoMap.keys rest ∧ (GoMap.keys rest).Nodup := by
      simpa [GoMap.keys] using hnd
    cases hd : Decode d0 with
    | error e =>
      simpa [List.filterMap_cons, decodedEntry, hd] using ih hnd2.2
    | ok cfg =>
      have h1 : k0 ∉ GoMap.keys (rest.filterMap (decodedEntry Decode)) :=
        fun hh => hnd2.1 (decodedEntries_keys Decode rest k0 hh)
      have h2 := ih hnd2.2
      simp only [GoMap.keys] at h1 h2
      simp [List.filterMap_cons, decodedEntry, hd, GoMap.keys, h1, h2]

/-- C17. When the `destinations` entry of the config is a map (its keys are
distinct), `init` does not fail, whatever entries cannot be decoded. Afterwards
`GetDestinationConfig(id)` is present exactly when `id` is a key whose entry decodes,
and is then the decoded config with its id replaced by the key; and
`GetDestinationConfigs` lists exactly the configs of the decodable entries, one per
entry, none of its elements being nil. -/
theorem YamlConfigurationSource_lookups (Decode : AnyValue → Except String DestinationConfig)
    (config : GoMap AnyValue) (old : GoMap DestinationConfig)
    (destinations : List (String × AnyValue))
    (hd : GoMap.get config destinationsKey = some (.object destinations))
    (hmap : (GoMap.keys destinations).Nodup) :
    (YamlConfigurationSource.init Decode { config := config, destinations := old }).1 = none
      ∧ (∀ id,
          (YamlConfigurationSource.init Decode
              { config := config, destinations := old }).2.GetDestinationConfig id
            = match GoMap.get destinations id with
              | none => none
              | some destination =>
                match Decode destination with
                | .error _ => none
                | .ok cfg => some { cfg with Config := { cfg.Config with Id := id } })
      ∧ (∀ id cfg,
          (YamlConfigurationSource.init Decode
              { config := config, destinations := old }).2.GetDestinationConfig id = some cfg →
            cfg.Config.Id = id)
      ∧ (YamlConfigurationSource.init Decode
            { config := config, destinations := old }).2.GetDestinationConfigs
          = (destinations.filterMap (decodedEntry Decode)).map (fun p => some p.2)
      ∧ (∀ x ∈ (YamlConfigurationSource.init Decode
            { config := config, destinations := old }).2.GetDestinationConfigs, x ≠ none)
      ∧ (∀ cfg,
          some cfg ∈ (YamlConfigurationSource.init Decode
              { config := config, destinations := old }).2.GetDestinationConfigs
            ↔ ∃ id, (YamlConfigurationSource.init Decode
                { config := config, destinations := old }).2.GetDestinationConfig id = some cfg)
      ∧ (GoMap.keys (YamlConfigurationSource.init Decode
            { config := config, destinations := old }).2.destinations).Nodup := by
  have hinit : YamlConfigurationSource.init Decode { config := config, destinations := old }
      = (none, { config := config,
                 destinations := destinations.filterMap (decodedEntry Decode) }) := by
    simp only [YamlConfigurationSource.init, hd]
    rw [initLoop_eq Decode destinations [] hmap (by intro k _; simp [GoMap.keys])]
    simp
  have hnd := decodedEntries_nodup Decode destinations hmap
  have hget : ∀ id,
      GoMap.get (destinations.filterMap (decodedEntry Decode)) id
        = match GoMap.get destinations id with
          | none => none
          | some destination =>
            match Decode destination with
            | .error _ => none
            | .ok cfg => some { cfg with Config := { cfg.Config with Id := id } } := by
    intro id
    rw [decodedEntries_get Decode destinations id hmap]
    cases GoMap.get destinations id with
    | none => rfl
    | some d =>
      simp only [decodedEntry]
      cases Decode d <;> rfl
  have hall : YamlConfigurationSource.GetDestinationConfigs
        { config := config, destinations := destinations.filterMap (decodedEntry Decode) }
      = (destinations.filterMap (decodedEntry Decode)).map (fun p => some p.2) := by
    have := fillLoop_eq (destinations.filterMap (decodedEntry Decode)) []
    simpa [YamlConfigurationSource.GetDestinationConfigs] using this
  rw [hinit]
  refine ⟨rfl, ?_, ?_, hall, ?_, ?_, hnd⟩
  · intro id
    simp only [YamlConfigurationSource.GetDestinationConfig]
    exact hget id
  · intro id cfg h
    simp only [YamlConfigurationSource.GetDestinationConfig] at h
    rw [hget id] at h
    cases hg : GoMap.get destinations id with
    | none => simp [hg] at h
    | some d =>
      cases hdec : Decode d with
      | error e => simp [hg, hdec] at h
      | ok c =>
        simp only [hg, hdec, Option.some.injEq] at h
        rw [← h]
  · intro x hx
    rw [hall] at hx
    obtain ⟨p, _, hp⟩ := List.mem_map.1 hx
    rw [← hp]
    simp
  · intro cfg
    rw [hall]
    simp only [YamlConfigurationSource.GetDestinationConfig]
    constructor
    · intro h
      obtain ⟨p, hp, hpe⟩ := List.mem_map.1 h
      obtain ⟨id, c⟩ := p
      simp only [Option.some.injEq] at hpe
      subst hpe
      exact ⟨id, (GoMap.get_eq_some_iff _ id c hnd).2 hp⟩
    · intro ⟨id, h⟩
      exact List.mem_map.2 ⟨(id, cfg), (GoMap.get_eq_some_iff _ id cfg hnd).1 h, rfl⟩

/-- Witness of C17: of the three destinations of `sampleYaml`, `pg` (whose body
declares the id `other`), `broken` (not a map) and `bq`, the lookups know `pg` and
`bq`, under these ids. -/
theorem YamlConfigurationSource_lookups_witness :
    (YamlConfigurationSource.init sampleDecode { config := sampleYaml, destinations := [] }).1
        = none
      ∧ (YamlConfigurationSource.init sampleDecode
            { config := sampleYaml, destinations := [] }).2.GetDestinationConfigs
          = ([("pg", .object [("id", .str "other")]), ("broken", .str "oops"),
              ("bq", .object [])].filterMap (decodedEntry sampleDecode)).map (fun p => some p.2)
      ∧ ((YamlConfigurationSource.init sampleDecode
            { config := sampleYaml, destinations := [] }).2.GetDestinationConfig "pg").map
          (fun cfg => cfg.Config.Id) = some "pg"
      ∧ ((YamlConfigurationSource.init sampleDecode
            { config := sampleYaml, destinations := [] }).2.GetDestinationConfig "broken").map
          (fun cfg => cfg.Config.Id) = none
      ∧ (YamlConfigurationSource.init sampleDecode
            { config := sampleYaml, destinations := [] }).2.GetDestinationConfigs.length = 2 :=
  ⟨(YamlConfigurationSource_lookups sampleDecode sampleYaml []
      [("pg", .object [("id", .str "other")]), ("broken", .str "oops"), ("bq", .object [])]
      rfl (by decide)).1,
   (YamlConfigurationSource_lookups sampleDecode sampleYaml []
      [("pg", .object [("id", .str "other")]), ("broken", .str "oops"), ("bq", .object [])]
      rfl (by decide)).2.2.2.1,
   by decide, by decide, by decide⟩

/-! ### The type resolver: all or nothing -/

theorem entryOutcome_error_iff (T : TypesPackage) (k : String) (v : AnyValue) :
    (∃ e, entryOutcome T k v = .error e)
      ↔ (∃ msg, T.TypeFromValue (T.ReformatValue v) = .error msg)
        ∨ (∃ D msg, T.DefaultTypes.get k = some D
            ∧ T.Convert D (T.ReformatValue v) = .error msg) := by
  unfold entryOutcome
  cases h1 : T.TypeFromValue (T.ReformatValue v) with
  | error err => simp
  | ok t =>
    cases h2 : T.DefaultTypes.get k with
    | none => simp
    | some D =>
      cases h3 : T.Convert D (T.ReformatValue v) with
      | error err => simp [h3]
      | ok c => simp [h3]

theorem resolveLoop_none_iff (T : TypesPackage) (sqlTypeHints : GoMap SQLType) :
    ∀ (entries : List (String × AnyValue)) (object : GoMap AnyValue) (Fields : GoMap Field),
      ((resolveLoop T sqlTypeHints entries object Fields).err = none
        ↔ ∀ p ∈ entries, ¬ ∃ e, entryOutcome T p.1 p.2 = .error e) := by
  intro entries
  induction entries with
  | nil => intro object Fields; simp [resolveLoop]
  | cons p rest ih =>
    intro object Fields
    obtain ⟨k, v⟩ := p
    rw [resolveLoop_cons]
    cases ho : entryOutcome T k v with
    | error e => simp [ho]
    | ok r =>
      simp only [ho]
      rw [ih]
      simp [ho]

/-- C19. `Resolve` returns an error exactly when some field of the record has a
canonical value whose type `TypeFromValue` cannot determine, or has a declared default
type to which `Convert` cannot cast its canonical value. With an error it returns no
Fields, and without error it returns Fields. Whether it fails, and whether it
returns Fields, does not depend on the order in which the entries of the record are
visited. -/
theorem Resolve_all_or_nothing (T : TypesPackage) (object : GoMap AnyValue)
    (sqlTypeHints : GoMap SQLType) :
    ((Resolve T object sqlTypeHints).err ≠ none
        ↔ ∃ k v, (k, v) ∈ object
            ∧ ((∃ msg, T.TypeFromValue (T.ReformatValue v) = .error msg)
              ∨ (∃ D msg, T.DefaultTypes.get k = some D
                  ∧ T.Convert D (T.ReformatValue v) = .error msg)))
      ∧ ((Resolve T object sqlTypeHints).err ≠ none → (Resolve T object sqlTypeHints).fields = none)
      ∧ ((Resolve T object sqlTypeHints).err = none → (Resolve T object sqlTypeHints).fields ≠ none)
      ∧ (∀ visited : List (String × AnyValue), visited.Perm object →
          ((resolveLoop T sqlTypeHints visited object []).err = none
              ↔ (Resolve T object sqlTypeHints).err = none)
            ∧ ((resolveLoop T sqlTypeHints visited object []).fields = none
              ↔ (Resolve T object sqlTypeHints).fields = none)) := by
  have hiff := resolveLoop_none_iff T sqlTypeHints
  have hf := resolveLoop_fields_iff T sqlTypeHints
  have horder : ∀ visited : List (String × AnyValue), visited.Perm object →
      ((resolveLoop T sqlTypeHints visited object []).err = none
        ↔ (Resolve T object sqlTypeHints).err = none) := by
    intro visited hperm
    simp only [Resolve]
    rw [hiff, hiff]
    constructor
    · intro h p hp
      exact h p (hperm.symm.subset hp)
    · intro h p hp
      exact h p (hperm.subset hp)
  refine ⟨?_, ?_, ?_, ?_⟩
  · simp only [Resolve, ne_eq]
    rw [hiff]
    constructor
    · intro h
      by_contra hcon
      apply h
      intro p hp hex
      exact hcon ⟨p.1, p.2, hp, (entryOutcome_error_iff T p.1 p.2).1 hex⟩
    · intro ⟨k, v, hkv, hbad⟩ h
      exact h (k, v) hkv ((entryOutcome_error_iff T k v).2 hbad)
  · intro h
    by_contra hne
    exact h ((hf object object []).2 hne)
  · intro h
    exact (hf object object []).1 h
  · intro visited hperm
    refine ⟨horder visited hperm, ?_⟩
    have h1 := hf visited object []
    have h2 := hf object object []
    have h3 := horder visited hperm
    simp only [Resolve] at h3 ⊢
    constructor
    · intro h
      by_contra hne
      have := h1.1 (h3.2 (h2.2 hne))
      exact this h
    · intro h
      by_contra hne
      have := h2.1 (h3.1 (h1.2 hne))
      exact this h

/-- Witness of C19: visited in reverse order, `sampleRecord`, whose `utc_time` cannot
be cast to TIMESTAMP, makes `Resolve` fail as well, without Fields. -/
theorem Resolve_all_or_nothing_witness :
    ((resolveLoop sampleTypes [] sampleRecord.reverse sampleRecord []).err = none
        ↔ (Resolve sampleTypes sampleRecord []).err = none)
      ∧ ((resolveLoop sampleTypes [] sampleRecord.reverse sampleRecord []).fields = none
        ↔ (Resolve sampleTypes sampleRecord []).fields = none) :=
  (Resolve_all_or_nothing sampleTypes sampleRecord []).2.2.2 sampleRecord.reverse
    (List.reverse_perm sampleRecord)

/-! ### Merge on primary key -/

theorem mergeRow_mem {ρ κ : Type} [DecidableEq κ] (key : ρ → κ) (r x : ρ) :
    ∀ table : List ρ, (table.map key).Nodup →
      (x ∈ mergeRow key table r ↔ x = r ∨ (x ∈ table ∧ key x ≠ key r)) := by
  intro table
  induction table with
  | nil => intro _; simp [mergeRow]
  | cons y t ih =>
    intro hnd
    have hnd2 : key y ∉ t.map key ∧ (t.map key).Nodup := by simpa using hnd
    by_cases hk : key y = key r
    · simp only [mergeRow, hk, if_true, List.mem_cons]
      constructor
      · intro h
        rcases h with h | h
        · exact Or.inl h
        · refine Or.inr ⟨Or.inr h, ?_⟩
          intro hx
          exact hnd2.1 (List.mem_map.2 ⟨x, h, by rw [hx, hk]⟩)
      · intro h
        rcases h with h | ⟨h1 | h1, h2⟩
        · exact Or.inl h
        · exact absurd (by rw [h1, hk]) h2
        · exact Or.inr h1
    · simp only [mergeRow, hk, if_false, List.mem_cons, ih hnd2.2]
      constructor
      · intro h
        rcases h with h | h | ⟨h1, h2⟩
        · exact Or.inr ⟨Or.inl h, by rw [h]; exact hk⟩
        · exact Or.inl h
        · exact Or.inr ⟨Or.inr h1, h2⟩
      · intro h
        rcases h with h | ⟨h1 | h1, h2⟩
        · exact Or.inr (Or.inl h)
        · exact Or.inl h1
        · exact Or.inr (Or.inr ⟨h1, h2⟩)

theorem mergeRow_nodup {ρ κ : Type} [DecidableEq κ] (key : ρ → κ) (r : ρ) :
    ∀ table : List ρ, (table.map key).Nodup → ((mergeRow key table r).map key).Nodup := by
  intro table
  induction table with
  | nil => intro _; simp [mergeRow]
  | cons y t ih =>
    intro hnd
    have hnd2 : key y ∉ t.map key ∧ (t.map key).Nodup := by simpa using hnd
    by_cases hk : key y = key r
    · simp only [mergeRow, hk, if_true, List.map_cons, List.nodup_cons]
      exact ⟨hk ▸ hnd2.1, hnd2.2⟩
    · simp only [mergeRow, hk, if_false, List.map_cons, List.nodup_cons]
      refine ⟨?_, ih hnd2.2⟩
      intro hmem
      obtain ⟨x, hx, hxk⟩ := List.mem_map.1 hmem
      rcases (mergeRow_mem key r x t hnd2.2).1 hx with h | ⟨h1, _⟩
      · exact hk (by rw [← hxk, h])
      · exact hnd2.1 (List.mem_map.2 ⟨x, h1, hxk⟩)

theorem mergeAll_spec {ρ κ : Type} [DecidableEq κ] (key : ρ → κ) :
    ∀ records : List ρ,
      ((records.foldl (mergeRow key) []).map key).Nodup
        ∧ ∀ x, x ∈ records.foldl (mergeRow key) []
            ↔ records.reverse.find? (fun r => decide (key r = key x)) = some x := by
  intro records
  induction records using List.reverseRecOn with
  | nil => simp
  | append_singleton rs r ih =>
    obtain ⟨hnd, hmem⟩ := ih
    rw [List.foldl_append]
    simp only [List.foldl_cons, List.foldl_nil, List.reverse_append, List.reverse_cons,
      List.reverse_nil, List.nil_append, List.singleton_append]
    refine ⟨mergeRow_nodup key r _ hnd, ?_⟩
    intro x
    rw [mergeRow_mem key r x _ hnd, hmem x]
    by_cases hk : key r = key x
    · simp only [List.find?_cons, hk, decide_True, Option.some.injEq]
      constructor
      · intro h
        rcases h with h | ⟨_, h2⟩
        · exact h.symm
        · exact absurd rfl h2
      · intro h
        exact Or.inl h.symm
    · simp only [List.find?_cons, hk, decide_False]
      constructor
      · intro h
        rcases h with h | ⟨h1, _⟩
        · exact absurd (by rw [h]) hk
        · exact h1
      · intro h
        exact Or.inr ⟨h, fun hh => hk hh.symm⟩

theorem consumeAll {ρ : Type} :
    ∀ (records : List ρ) (s : MergeStream ρ),
      (records.foldl MergeStream.Consume s).buffer = s.buffer ++ records
        ∧ (records.foldl MergeStream.Consume s).state
            = { s.state with ProcessedRows := s.state.ProcessedRows + records.length
                             SuccessfulRows := s.state.SuccessfulRows + records.length } := by
  intro records
  induction records with
  | nil => intro s; simp
  | cons r rs ih =>
    intro s
    obtain ⟨h1, h2⟩ := ih (s.Consume r)
    simp only [List.foldl_cons, h1, h2]
    refine ⟨by simp [MergeStream.Consume], ?_⟩
    simp only [MergeStream.Consume, List.length_cons, State.mk.injEq, true_and]
    omega

/-- C18. For every sequence of records consumed in one commit unit by a stream with a
primary key and merge-rows, on an empty destination: after `Complete` the stream is
completed with every record counted, the destination has no two rows with the same
key, it has a row for exactly the keys of the records, and each of its rows is the
last record with its key in arrival order. -/
theorem merge_on_primary_key {ρ κ : Type} [DecidableEq κ] (key : ρ → κ) (records : List ρ) :
    (ingestWithMerge key records).1
        = { Status := .Completed, ProcessedRows := records.length
            SuccessfulRows := records.length }
      ∧ ((ingestWithMerge key records).2.map key).Nodup
      ∧ (∀ k, (∃ r ∈ records, key r = k) ↔ (∃ row ∈ (ingestWithMerge key records).2, key row = k))
      ∧ (∀ row ∈ (ingestWithMerge key records).2,
          records.reverse.find? (fun r => decide (key r = key row)) = some row) := by
  obtain ⟨hbuf, hstate⟩ := consumeAll records (MergeStream.create ρ)
  have hdest : (ingestWithMerge key records).2 = records.foldl (mergeRow key) [] := by
    simp only [ingestWithMerge, MergeStream.Complete]
    rw [hbuf]
    simp [MergeStream.create]
  obtain ⟨hnd, hmem⟩ := mergeAll_spec key records
  refine ⟨?_, ?_, ?_, ?_⟩
  · simp only [ingestWithMerge, MergeStream.Complete]
    rw [hstate]
    simp [MergeStream.create]
  · rw [hdest]; exact hnd
  · intro k
    rw [hdest]
    constructor
    · intro ⟨r, hr, hk⟩
      have hsome : (records.reverse.find? (fun x => decide (key x = k))).isSome := by
        rw [List.find?_isSome]
        exact ⟨r, List.mem_reverse.2 hr, by simpa using hk⟩
      obtain ⟨x, hx⟩ := Option.isSome_iff_exists.1 hsome
      have hxk : key x = k := by simpa using List.find?_some hx
      refine ⟨x, (hmem x).2 ?_, hxk⟩
      rw [hxk]
      exact hx
    · intro ⟨row, hrow, hk⟩
      have hfind := (hmem row).1 hrow
      exact ⟨row, List.mem_reverse.1 (List.mem_of_find?_eq_some hfind), hk⟩
  · intro row hrow
    rw [hdest] at hrow
    exact (hmem row).1 hrow

/-- Witness of C18: the eight records of `repeated_ids.ndjson`, merged on `id`, leave
the four rows with ids 1 to 4 and names test7, test1, test6 and test5, the stream
having processed eight rows. -/
theorem merge_on_primary_key_witness :
    (ingestWithMerge TestRow.id repeatedIds).2
        = [⟨"2022-08-18T14:17:22.841182Z", 1, "test7"⟩, ⟨"2022-08-18T14:17:22.841182Z", 2, "test1"⟩,
           ⟨"2022-08-18T14:17:22.841182Z", 3, "test6"⟩, ⟨"2022-08-18T14:17:22.841182Z", 4, "test5"⟩]
      ∧ (ingestWithMerge TestRow.id repeatedIds).1
        = { Status := .Completed, ProcessedRows := repeatedIds.length
            SuccessfulRows := repeatedIds.length }
      ∧ repeatedIds.length = 8
      ∧ repeatedIds.reverse.find?
            (fun r => decide (r.id = (⟨"2022-08-18T14:17:22.841182Z", 3, "test6"⟩ : TestRow).id))
          = some ⟨"2022-08-18T14:17:22.841182Z", 3, "test6"⟩ :=
  ⟨by decide, (merge_on_primary_key TestRow.id repeatedIds).1, by decide,
   (merge_on_primary_key TestRow.id repeatedIds).2.2.2 ⟨"2022-08-18T14:17:22.841182Z", 3, "test6"⟩
     (by decide)⟩

end Bulker
